import Mathlib

/-!
Verification of the air-cargo manifest assistant's data pipeline.

The development shallowly embeds the two semantically interesting modules:

* `services/apiService.ts` — the manifest aggregator `transformManifest`
  (raw API document → canonical `ManifestData`);
* `components/Modal.tsx` — the chart pipeline: `getValueByPath`,
  `applyFilters`, `normalizeFieldPath` / `normalizeSpecFields`,
  `getSourceRows`, `generateChartDataFromSpec`, and the histogram branch of
  `buildEchartsOption`.

Dynamic JavaScript values are modelled by `JsValue`, a JSON-like inductive
with exact rational numbers standing in for JS numbers.  Code points where
JavaScript would throw a `TypeError` (property access or the `in` operator
on `null`/`undefined`) are modelled in the `Except String` monad; all other
code is pure.  JS `Map`s and `Set`s are modelled by insertion-ordered
association lists, matching JS iteration order.  Key equality for `Map`s is
structural here; in the modelled program the keys are primitives (strings)
on every relevant path, where structural and SameValueZero equality agree.
-/

namespace ACM

/-- A JavaScript/JSON runtime value.  Numbers are exact rationals (JS uses
binary floating point; the claims under study are stated in exact rational
arithmetic).  `undefined` is JavaScript's `undefined`. -/
inductive JsValue where
  | null : JsValue
  | undefined : JsValue
  | bool : Bool → JsValue
  | num : ℚ → JsValue
  | str : String → JsValue
  | arr : List JsValue → JsValue
  | obj : List (String × JsValue) → JsValue
deriving Repr

namespace JsValue

mutual

/-- Structural equality of JS values (SameValueZero on the NaN-free
fragment; `Map` keys in the modelled program are strings, where this agrees
with JS key equality). -/
def beq : JsValue → JsValue → Bool
  | .null, .null => true
  | .undefined, .undefined => true
  | .bool a, .bool b => a == b
  | .num a, .num b => a == b
  | .str a, .str b => a == b
  | .arr a, .arr b => beqList a b
  | .obj a, .obj b => beqFields a b
  | _, _ => false

/-- Elementwise `beq` on lists of JS values. -/
def beqList : List JsValue → List JsValue → Bool
  | [], [] => true
  | x :: xs, y :: ys => beq x y && beqList xs ys
  | _, _ => false

/-- Elementwise `beq` on object field lists. -/
def beqFields : List (String × JsValue) → List (String × JsValue) → Bool
  | [], [] => true
  | (k, v) :: xs, (l, w) :: ys => k == l && beq v w && beqFields xs ys
  | _, _ => false

end

instance : BEq JsValue := ⟨beq⟩

/-- JS truthiness: `undefined`, `null`, `false`, `0`, and `''` are falsy;
every object or non-empty primitive is truthy.  (`NaN`, also falsy, has no
representative in the rational model.) -/
def jsTruthy : JsValue → Bool
  | .null => false
  | .undefined => false
  | .bool b => b
  | .num q => decide (q ≠ 0)
  | .str s => decide (s ≠ "")
  | .arr _ => true
  | .obj _ => true

/-- JS falsiness, the negation of `jsTruthy`. -/
def jsFalsy (v : JsValue) : Bool := !v.jsTruthy

/-- `v == null` (loose equality): true exactly for `null` and `undefined`. -/
def isNullish : JsValue → Bool
  | .null => true
  | .undefined => true
  | _ => false

end JsValue

open JsValue

/-- The JS nullish-coalescing operator `a ?? b`. -/
def coalesce (a b : JsValue) : JsValue := if a.isNullish then b else a

/-- The JS logical-or `a || b` as used on values: `a` if truthy, else `b`. -/
def jsOrV (a b : JsValue) : JsValue := if a.jsTruthy then a else b

/-- `String.prototype.toLowerCase` on the character list.  (Core string
functions are compiled by well-founded recursion and do not reduce, so the
embedding computes on `String.data` instead.) -/
def sToLower (s : String) : String := String.mk (s.data.map Char.toLower)

/-- `String.prototype.endsWith`, computed on character lists. -/
def strEndsWith (s t : String) : Bool := t.data.reverse.isPrefixOf s.data.reverse

/-- `String.prototype.split` with a single-character separator:
`''.split('.') = ['']`, separators delimit possibly-empty fields. -/
def splitOnChar (c : Char) : List Char → List (List Char)
  | [] => [[]]
  | x :: xs =>
      let r := splitOnChar c xs
      if x = c then [] :: r
      else
        match r with
        | g :: gs => (x :: g) :: gs
        | [] => [[x]]

/-- `path.split('.')`. -/
def splitPath (p : String) : List String := (splitOnChar '.' p.data).map String.mk

/-- Whether a string is the canonical decimal form of a natural number
(array index as JS sees it): digits only, no leading zero except `"0"`. -/
def isIndexString (s : String) : Bool :=
  match s.data with
  | [] => false
  | c :: cs => (c :: cs).all Char.isDigit && (c ≠ '0' || cs.isEmpty)

/-- Parse a canonical index string (only meaningful when `isIndexString`). -/
def indexOfString (s : String) : ℕ :=
  s.data.foldl (fun n c => n * 10 + (c.toNat - '0'.toNat)) 0

/-- Property lookup on a value that is not `null`/`undefined`, as JS
evaluates `base[key]`: objects yield the named field (or `undefined`);
arrays expose their elements and `length`; strings expose their characters
and `length`; other primitives autobox and yield `undefined`. -/
def jsProp : JsValue → String → JsValue
  | .obj fields, k => ((fields.find? (fun p => p.1 == k)).map (·.2)).getD .undefined
  | .arr xs, k =>
      if k = "length" then .num xs.length
      else if isIndexString k then
        match xs.get? (indexOfString k) with
        | some v => v
        | none => .undefined
      else .undefined
  | .str s, k =>
      if k = "length" then .num s.length
      else if isIndexString k then
        match s.data.get? (indexOfString k) with
        | some c => .str (String.singleton c)
        | none => .undefined
      else .undefined
  | _, _ => .undefined

/-- Optional chaining `base?.key`: `undefined` when the base is nullish,
otherwise an ordinary property access. -/
def jsGetOpt (v : JsValue) (k : String) : JsValue :=
  if v.isNullish then .undefined else jsProp v k

/-- Plain property access `base.key`: throws a `TypeError` when the base is
`null` or `undefined`, otherwise as `jsProp`. -/
def jsGet (v : JsValue) (k : String) : Except String JsValue :=
  if v.isNullish then .error "TypeError: cannot read properties of null or undefined"
  else .ok (jsProp v k)

/-- The JS `in` operator `key in v`: membership among own properties for
objects and arrays; a `TypeError` on anything that is not an object. -/
def jsIn (k : String) (v : JsValue) : Except String Bool :=
  match v with
  | .obj fields => .ok (fields.any (fun p => p.1 == k))
  | .arr xs => .ok (k = "length" || (isIndexString k && indexOfString k < xs.length))
  | _ => .error "TypeError: cannot use in operator to search in a non-object"

/-- `typeof v === 'object'`: true for objects, arrays, and (the classic
JavaScript quirk) `null`. -/
def typeofIsObject : JsValue → Bool
  | .obj _ => true
  | .arr _ => true
  | .null => true
  | _ => false

/-- `Array.isArray`. -/
def isArray : JsValue → Bool
  | .arr _ => true
  | _ => false

/-- `Array.isArray(v) ? v : []` — the defensive array coercion used
throughout the aggregator. -/
def jsArrayElems : JsValue → List JsValue
  | .arr xs => xs
  | _ => []

/-! ### Number and string conversions -/

/-- The whitespace characters trimmed by JS numeric string conversion. -/
def jsWhitespace (c : Char) : Bool := c = ' ' || c = '\t' || c = '\n' || c = '\r'

/-- Consume leading decimal digits, returning the rest, the accumulated
value, and the number of digits consumed. -/
def parseDigits : List Char → ℕ → ℕ → (List Char × ℕ × ℕ)
  | c :: cs, acc, n =>
      if c.isDigit then parseDigits cs (acc * 10 + (c.toNat - '0'.toNat)) (n + 1)
      else (c :: cs, acc, n)
  | [], acc, n => ([], acc, n)

/-- JS `Number(s)` on a string, with `none` standing for `NaN`: trims
whitespace, accepts an optional sign, decimal digits with an optional
fraction and exponent, and maps the empty/whitespace-only string to `0`.
(The hexadecimal/binary/`Infinity` literal forms, which never occur in
manifest data, are treated as `NaN`.) -/
def jsParseNumber (s : String) : Option ℚ :=
  let cs := ((s.data.dropWhile jsWhitespace).reverse.dropWhile jsWhitespace).reverse
  if cs.isEmpty then some 0
  else
    let signAndRest : ℚ × List Char :=
      match cs with
      | '-' :: rest => (-1, rest)
      | '+' :: rest => (1, rest)
      | _ => (1, cs)
    let sign := signAndRest.1
    let (cs1, ip, ipLen) := parseDigits signAndRest.2 0 0
    let fracAndRest : List Char × ℕ × ℕ :=
      match cs1 with
      | '.' :: rest => parseDigits rest 0 0
      | _ => (cs1, 0, 0)
    let (cs2, fp, fpLen) := fracAndRest
    if ipLen = 0 ∧ fpLen = 0 then none
    else
      let mant : ℚ := (ip : ℚ) + (fp : ℚ) / (10 : ℚ) ^ fpLen
      match cs2 with
      | [] => some (sign * mant)
      | e :: rest =>
          if e = 'e' ∨ e = 'E' then
            let esignAndRest : ℤ × List Char :=
              match rest with
              | '-' :: r => (-1, r)
              | '+' :: r => (1, r)
              | _ => (1, rest)
            let (rest1, ev, evLen) := parseDigits esignAndRest.2 0 0
            if evLen = 0 ∨ ¬ rest1.isEmpty then none
            else some (sign * mant * (10 : ℚ) ^ (esignAndRest.1 * ev))
          else none

/-- Decimal rendering of a rational, modelling JS number-to-string on the
values occurring in manifest data: integers print as integers, and
rationals with a finite decimal expansion (up to 30 fractional digits)
print in minimal decimal form.  Other rationals, which do not arise from
the modelled float arithmetic, fall back to a `num/den` rendering. -/
def qToString (q : ℚ) : String :=
  if q.den = 1 then toString q.num
  else
    let sign := if q < 0 then "-" else ""
    let a : ℚ := |q|
    match (List.range 31).find? (fun k => (a * (10 : ℚ) ^ k).den = 1) with
    | some k =>
        let n := (a * (10 : ℚ) ^ k).num.toNat
        let ds := (toString n).data
        let ds := if ds.length ≤ k then List.replicate (k + 1 - ds.length) '0' ++ ds else ds
        sign ++ String.mk (ds.take (ds.length - k)) ++ "." ++ String.mk (ds.drop (ds.length - k))
    | none => sign ++ toString a.num ++ "/" ++ toString a.den

mutual

/-- JS `String(v)`: primitives by their canonical form, arrays by
`Array.prototype.join(',')` (with nullish elements as empty strings),
plain objects as `"[object Object]"`. -/
def jsToString : JsValue → String
  | .null => "null"
  | .undefined => "undefined"
  | .bool b => if b then "true" else "false"
  | .num q => qToString q
  | .str s => s
  | .arr xs => String.intercalate "," (jsToStringElems xs)
  | .obj _ => "[object Object]"

/-- `Array.prototype.join` element rendering: nullish elements become the
empty string. -/
def jsToStringElems : List JsValue → List String
  | [] => []
  | .null :: xs => "" :: jsToStringElems xs
  | .undefined :: xs => "" :: jsToStringElems xs
  | x :: xs => jsToString x :: jsToStringElems xs

end

/-- JS `Number(v)` on an arbitrary value, with `none` standing for `NaN`.
Arrays convert via their string form; plain objects give `NaN`. -/
def jsToNumber : JsValue → Option ℚ
  | .null => some 0
  | .undefined => none
  | .bool b => some (if b then 1 else 0)
  | .num q => some q
  | .str s => jsParseNumber s
  | .arr xs => jsParseNumber (jsToString (.arr xs))
  | .obj _ => none

/-- `asNumber` from `services/apiService.ts`: numbers pass through,
numeric strings parse (non-finite results become `0`), everything else is
`0`. -/
def asNumber : JsValue → ℚ
  | .num q => q
  | .str s =>
      match jsParseNumber s with
      | some q => q
      | none => 0
  | _ => 0

/-! ### Insertion-ordered maps and sets (JS `Map` / `Set`) -/

/-- JS `Map.prototype.get` over an insertion-ordered association list. -/
def mapGet? {κ α : Type} [BEq κ] (k : κ) : List (κ × α) → Option α
  | [] => none
  | (l, v) :: t => if l == k then some v else mapGet? k t

/-- JS `Map.prototype.set`: replaces an existing key in place (keeping its
position) or appends a new entry at the end. -/
def mapSet {κ α : Type} [BEq κ] (k : κ) (v : α) : List (κ × α) → List (κ × α)
  | [] => [(k, v)]
  | (l, w) :: t => if l == k then (k, v) :: t else (l, w) :: mapSet k v t

/-- JS `Set.prototype.add` on a string set: insertion-ordered,
deduplicated. -/
def setAdd (l : List String) (s : String) : List String :=
  if s ∈ l then l else l ++ [s]

/-! ### Canonical entities (`types.ts`)

Fields typed `string` in `types.ts` but populated with unvalidated API
values at runtime are modelled as `JsValue`; fields the transformation
always produces as numbers are `ℕ`/`ℚ`. -/

/-- `Weight` from `types.ts`. -/
structure Weight where
  value : ℚ
  unit : String
deriving Repr

/-- `ULDContent` from `types.ts`. -/
structure ULDContent where
  uld_id : JsValue
  pieces : ℕ
  weight : Weight
deriving Repr

/-- `HouseShipment` from `types.ts`. -/
structure HouseShipment where
  hawb_number : JsValue
  customer : JsValue
  origin : JsValue
  destination : JsValue
  pieces : ℕ
  actual_weight_kg : ℚ
  chargeable_weight_kg : ℚ
  remarks : JsValue
deriving Repr

/-- `Shipment` from `types.ts`. -/
structure Shipment where
  awb_number : JsValue
  pieces : ℕ
  weight : Weight
  nature_of_goods : JsValue
  special_handling_codes : List String
  storage_instructions : Option String
  uld_contents : List ULDContent
  house_shipments : List HouseShipment
deriving Repr

/-- `FlightDetails` from `types.ts`. -/
structure FlightDetails where
  flight_number : String
  departure_airport : JsValue
  arrival_airport : JsValue
  departure_date : String
  arrival_date : String
deriving Repr

/-- `ManifestData` from `types.ts`. -/
structure ManifestData where
  id : String
  manifest_number : String
  flight_details : FlightDetails
  shipments : List Shipment
  total_pieces : ℕ
  total_weight : Weight
deriving Repr

/-! ### The manifest aggregator (`transformManifest`, `services/apiService.ts`)

The per-AWB accumulator and the two masterbill-processing loop bodies
(container walk, lines 113–200; top-level fallback, lines 206–273) are
embedded as pure step functions; the only fallible parts of
`transformManifest` are plain property accesses and the `in` operator in
the masterbills-discovery heuristic, so those run in `Except String`.
`console.*` calls are side effects with no data flow and are dropped. -/

/-- Per-ULD running totals (`uldIdToTotals` map values). -/
structure ULDTotals where
  pieces : ℕ
  weightKg : ℚ
deriving Repr

/-- The per-AWB accumulator built by `transformManifest`. -/
structure Accumulator where
  totalPieces : ℕ
  totalWeightKg : ℚ
  uldIdToTotals : List (JsValue × ULDTotals)
  houseShipments : List HouseShipment
  natureOfGoods : JsValue
  shcs : List String
deriving Repr

/-- `Array.isArray(mb?.pieces) ? mb.pieces : []`. -/
def piecesArrayOf (mb : JsValue) : List JsValue := jsArrayElems (jsGetOpt mb "pieces")

/-- `Array.isArray(mb?.housebills) ? mb.housebills : []`. -/
def housebillsOf (mb : JsValue) : List JsValue := jsArrayElems (jsGetOpt mb "housebills")

/-- `Array.isArray(hb?.pieces) ? hb.pieces : []`. -/
def hbPiecesList (hb : JsValue) : List JsValue := jsArrayElems (jsGetOpt hb "pieces")

/-- SHC extraction: `mb.shcs.map(s => String(s?.code ?? ''))` when `shcs`
is an array, else `[]`. -/
def shcsOf (mb : JsValue) : List String :=
  match jsGetOpt mb "shcs" with
  | .arr xs => xs.map (fun s => jsToString (coalesce (jsGetOpt s "code") (.str "")))
  | _ => []

/-- `housebills.reduce((sum, hb) => sum + (isArray(hb?.pieces) ? hb.pieces.length : 0), 0)`. -/
def housePiecesCount (hbs : List JsValue) : ℕ :=
  hbs.foldl (fun sum hb => sum + (hbPiecesList hb).length) 0

/-- `list.reduce((s, p) => s + asNumber(p?.weight), 0)` over one
housebill's pieces. -/
def pieceWeightSum (ps : List JsValue) : ℚ :=
  ps.foldl (fun s p => s + asNumber (jsGetOpt p "weight")) 0

/-- `housebills.reduce((sum, hb) => sum + Σ asNumber(p?.weight), 0)` —
the masterbill's `totalHouseWeight`. -/
def houseWeightTotal (hbs : List JsValue) : ℚ :=
  hbs.foldl (fun sum hb => sum + pieceWeightSum (hbPiecesList hb)) 0

/-- `piecesCount`: the masterbill's own `pieces[]` length when non-empty,
else the summed housebill piece counts. -/
def piecesCountOf (mb : JsValue) : ℕ :=
  let pa := piecesArrayOf mb
  if pa.length > 0 then pa.length else housePiecesCount (housebillsOf mb)

/-- The per-ULD piece-count map built from a non-empty `masterbill.pieces`
array: each piece counts `1` toward its own `containerNumber`, defaulting
to `fallbackUld` (the enclosing container's id on the container walk,
`'UNKNOWN-ULD'` on the top-level path). -/
def buildUldPieceCounts (fallbackUld : JsValue) (pa : List JsValue) : List (JsValue × ℕ) :=
  pa.foldl
    (fun m p =>
      let uldFromPiece := coalesce (jsGetOpt p "containerNumber") fallbackUld
      mapSet uldFromPiece ((mapGet? uldFromPiece m).getD 0 + 1) m)
    []

/-- `uldPieceCounts` for one masterbill: grouped from `pieces[]` when
non-empty, else all of `piecesCount` attributed to `fallbackUld`. -/
def uldPieceCountsOf (fallbackUld : JsValue) (mb : JsValue) : List (JsValue × ℕ) :=
  let pa := piecesArrayOf mb
  if pa.length > 0 then buildUldPieceCounts fallbackUld pa
  else mapSet fallbackUld ((mapGet? fallbackUld ([] : List (JsValue × ℕ))).getD 0 + piecesCountOf mb) []

/-- `totalPiecesForAllocation`: the summed per-ULD piece counts, with the
`|| 1` guard against a zero divisor. -/
def allocTotal (counts : List (JsValue × ℕ)) : ℕ :=
  let s := (counts.map (fun e => e.2)).sum
  if s = 0 then 1 else s

/-- The proportional-allocation loop: for each `(uld, pcs)` entry, add
`pcs` pieces and a `pcs / totalPiecesForAllocation` share of the
masterbill's house weight to the AWB's running ULD totals. -/
def applyUldAlloc (counts : List (JsValue × ℕ)) (w : ℚ)
    (m : List (JsValue × ULDTotals)) : List (JsValue × ULDTotals) :=
  let alloc := allocTotal counts
  counts.foldl
    (fun m e =>
      let t := (mapGet? e.1 m).getD ⟨0, 0⟩
      mapSet e.1 ⟨t.pieces + e.2, t.weightKg + ((e.2 : ℚ) / (alloc : ℚ)) * w⟩ m)
    m

/-- Build one `HouseShipment` from a raw housebill (lines 185–194 /
259–268; origin and destination come from the manifest's flight route). -/
def mkHouseShipment (dep arr : JsValue) (hb : JsValue) : HouseShipment :=
  let hbPieces := hbPiecesList hb
  { hawb_number := coalesce (jsGetOpt hb "housebillNumber") (.str "")
    customer := coalesce (jsGetOpt hb "customer") (.str "")
    origin := dep
    destination := arr
    pieces := hbPieces.length
    actual_weight_kg := pieceWeightSum hbPieces
    chargeable_weight_kg := pieceWeightSum hbPieces
    remarks := coalesce (jsGetOpt hb "remarks") .undefined }

/-- The fresh accumulator created on first sight of an AWB. -/
def freshAccumulator (mb : JsValue) : Accumulator :=
  { totalPieces := 0
    totalWeightKg := 0
    uldIdToTotals := []
    houseShipments := []
    natureOfGoods := coalesce (jsGetOpt mb "natureOfGoods") (.str "")
    shcs := [] }

/-- The container-walk loop body (lines 113–200): skip a masterbill with a
falsy AWB number, otherwise merge its counts, weight, SHCs, ULD
allocation, and house shipments into the per-AWB map. -/
def processMasterbill (dep arr uldId : JsValue)
    (st : List (JsValue × Accumulator)) (mb : JsValue) : List (JsValue × Accumulator) :=
  let awbNumber := coalesce (jsGetOpt mb "masterbillNumber") (.str "")
  if awbNumber.jsFalsy then st
  else
    let housebills := housebillsOf mb
    let piecesCount := piecesCountOf mb
    let totalHouseWeight := houseWeightTotal housebills
    let existing := (mapGet? awbNumber st).getD (freshAccumulator mb)
    let existing :=
      { existing with
        totalPieces := existing.totalPieces + piecesCount
        totalWeightKg := existing.totalWeightKg + totalHouseWeight
        shcs := (shcsOf mb).foldl setAdd existing.shcs }
    let existing :=
      { existing with
        uldIdToTotals :=
          applyUldAlloc (uldPieceCountsOf uldId mb) totalHouseWeight existing.uldIdToTotals }
    let existing :=
      { existing with
        houseShipments := existing.houseShipments ++ housebills.map (mkHouseShipment dep arr) }
    mapSet awbNumber existing st

/-- The top-level fallback loop body (lines 206–273): like the container
walk but with `'UNKNOWN-ULD'` as the fallback ULD id and no SHC
collection. -/
def processTopMasterbill (dep arr : JsValue)
    (st : List (JsValue × Accumulator)) (mb : JsValue) : List (JsValue × Accumulator) :=
  let awbNumber := coalesce (jsGetOpt mb "masterbillNumber") (.str "")
  if awbNumber.jsFalsy then st
  else
    let housebills := housebillsOf mb
    let piecesCount := piecesCountOf mb
    let totalHouseWeight := houseWeightTotal housebills
    let existing := (mapGet? awbNumber st).getD (freshAccumulator mb)
    let existing :=
      { existing with
        totalPieces := existing.totalPieces + piecesCount
        totalWeightKg := existing.totalWeightKg + totalHouseWeight }
    let existing :=
      { existing with
        uldIdToTotals :=
          applyUldAlloc (uldPieceCountsOf (.str "UNKNOWN-ULD") mb) totalHouseWeight
            existing.uldIdToTotals }
    let existing :=
      { existing with
        houseShipments := existing.houseShipments ++ housebills.map (mkHouseShipment dep arr) }
  -- `piecesCount` feeds `totalPieces` above; Lean requires the binding used
    mapSet awbNumber existing st

/-- The masterbills-discovery heuristic (lines 96–108): scan the
container's own entries for the first array whose first element is
(`typeof`-)object-like and has a `masterbillNumber`, `housebills`, or
`pieces` key.  Faithfully throws where JS does: `typeof null === 'object'`
lets a `null` first element reach the `in` operator, which raises a
`TypeError`. -/
def discoverLoop : List (String × JsValue) → Except String (List JsValue)
  | [] => .ok []
  | (_, v) :: rest =>
      match v with
      | .arr (x :: xs) =>
          if typeofIsObject x then do
            let b1 ← jsIn "masterbillNumber" x
            if b1 then .ok (x :: xs)
            else do
              let b2 ← jsIn "housebills" x
              if b2 then .ok (x :: xs)
              else do
                let b3 ← jsIn "pieces" x
                if b3 then .ok (x :: xs) else discoverLoop rest
          else discoverLoop rest
      | _ => discoverLoop rest

/-- `Object.entries(container || {})`: a falsy value gives no entries;
objects list their fields, arrays and strings their indexed elements;
other primitives have no own enumerable properties. -/
def ownEntries (v : JsValue) : List (String × JsValue) :=
  if v.jsFalsy then []
  else
    match v with
    | .obj fields => fields
    | .arr xs => xs.enum.map (fun e => (toString e.1, e.2))
    | .str s => s.data.enum.map (fun e => (toString e.1, JsValue.str (String.singleton e.2)))
    | _ => []

/-- Locate a container's masterbills (lines 93–108): prefer an array under
`masterbills`, then `masterbill`, then the discovery heuristic. -/
def masterbillsOfContainer (container : JsValue) : Except String (List JsValue) :=
  match jsGetOpt container "masterbills" with
  | .arr xs => .ok xs
  | _ =>
      match jsGetOpt container "masterbill" with
      | .arr xs => .ok xs
      | _ => discoverLoop (ownEntries container)

/-- One iteration of the container walk (lines 87–201): resolve the ULD
id, locate the masterbills, fold them into the per-AWB map, and count the
processed masterbills. -/
def processContainer (dep arr : JsValue)
    (acc : List (JsValue × Accumulator) × ℕ) (container : JsValue) :
    Except String (List (JsValue × Accumulator) × ℕ) := do
  let uldId := coalesce (jsGetOpt container "containerNumber") (.str "N/A")
  let mbs ← masterbillsOfContainer container
  .ok (mbs.foldl (processMasterbill dep arr uldId) acc.1, acc.2 + mbs.length)

/-- Finalization of one shipment (lines 279–296): `uld_contents` from the
ULD map in insertion order, `special_handling_codes` from the SHC set in
insertion order. -/
def finalizeShipment (awbAndAcc : JsValue × Accumulator) : Shipment :=
  let acc := awbAndAcc.2
  { awb_number := awbAndAcc.1
    pieces := acc.totalPieces
    weight := { value := acc.totalWeightKg, unit := "kg" }
    nature_of_goods := acc.natureOfGoods
    special_handling_codes := acc.shcs
    storage_instructions := none
    uld_contents :=
      acc.uldIdToTotals.map (fun e =>
        { uld_id := e.1, pieces := e.2.pieces, weight := { value := e.2.weightKg, unit := "kg" } })
    house_shipments := acc.houseShipments }

/-- `transformManifest` from `services/apiService.ts` (lines 55–321).
Returns `Except.error` exactly where the JS function throws a
`TypeError`. -/
def transformManifest (apiData : JsValue) : Except String ManifestData := do
  let doc := coalesce (jsGetOpt apiData "doc") apiData
  let manifestInfo := coalesce (jsGetOpt doc "manifest") (.obj [])
  let containers := if isArray (jsGetOpt doc "containers") then jsArrayElems (jsGetOpt doc "containers") else []
  let departureAirport := coalesce (← jsGet manifestInfo "pointOfLoading") (.str "")
  let arrivalAirport := coalesce (← jsGet manifestInfo "pointOfUnloading") (.str "")
  let topLevelMasterbills := if isArray (jsGetOpt doc "masterbills") then jsArrayElems (jsGetOpt doc "masterbills") else []
  let walked ← containers.foldlM (processContainer departureAirport arrivalAirport) ([], 0)
  let byAwb :=
    if walked.2 = 0 ∧ topLevelMasterbills.length > 0 then
      topLevelMasterbills.foldl (processTopMasterbill departureAirport arrivalAirport) walked.1
    else walked.1
  let shipments := byAwb.map finalizeShipment
  -- `shipments.reduce((sum, s) => sum + (s.pieces || 0), 0)` — on a
  -- natural number `s.pieces || 0` is the identity
  let totalPieces := shipments.foldl (fun sum s => sum + s.pieces) 0
  -- `shipments.reduce((sum, s) => sum + asNumber(s.weight?.value), 0)`
  let totalWeight := shipments.foldl (fun sum s => sum + asNumber (.num s.weight.value)) 0
  let idv ← jsGet manifestInfo "id"
  let mnv ← jsGet manifestInfo "manifestNo"
  let fnv ← jsGet manifestInfo "flightNo"
  let datev ← jsGet manifestInfo "date"
  .ok
    { id := jsToString (coalesce idv (coalesce mnv (.str "")))
      manifest_number := jsToString (coalesce mnv (.str ""))
      flight_details :=
        { flight_number := jsToString (coalesce fnv (.str ""))
          departure_airport := departureAirport
          arrival_airport := arrivalAirport
          departure_date := jsToString (coalesce datev (.str ""))
          arrival_date := "" }
      shipments := shipments
      total_pieces := totalPieces
      total_weight := { value := totalWeight, unit := "kg" } }

/-! ### The chart pipeline (`components/Modal.tsx`) -/

/-- `ChartSource` from `Modal.tsx`. -/
inductive ChartSource where
  | shipments | hawbs | ulds
deriving DecidableEq, Repr

/-- `ChartType` from `Modal.tsx`. -/
inductive ChartType where
  | bar | line | pie | stacked_bar | scatter | histogram | heatmap | treemap
deriving DecidableEq, Repr

/-- `Aggregate` from `Modal.tsx`. -/
inductive Aggregate where
  | sum | count | avg
deriving DecidableEq, Repr

/-- The sort direction of a chart spec. -/
inductive SortDir where
  | asc | desc
deriving DecidableEq, Repr

/-- The filter operators of `ChartFilter`. -/
inductive FilterOp where
  | eq | neq | contains | isIn | gt | gte | lt | lte
deriving DecidableEq, Repr

/-- `ChartFilter` from `Modal.tsx`. -/
structure ChartFilter where
  field : String
  op : FilterOp
  value : JsValue
deriving Repr

/-- `ChartSpec` from `Modal.tsx`.  Fields declared `string` there but
delivered by the LLM (possibly null/missing) are `Option String`;
`topN`/`binCount` are numbers. -/
structure ChartSpec where
  source : ChartSource
  chartType : ChartType
  xField : Option String
  yField : Option String
  yCategoryField : Option String
  valueField : Option String
  seriesField : Option String
  sizeField : Option String
  parentField : Option String
  childField : Option String
  aggregate : Option Aggregate
  title : Option String
  filters : Option (List ChartFilter)
  topN : Option ℤ
  sort : Option SortDir
  unit : Option String
  binCount : Option ℕ
  stack : Option Bool
deriving Repr

/-- The Field Accessor's dotted-path walk (`path.split('.').reduce(...)`):
each step returns `undefined` on a nullish accumulator, else a plain
property access. -/
def pathResolve (obj : JsValue) (keys : List String) : JsValue :=
  keys.foldl (fun acc key => if acc.isNullish then .undefined else jsProp acc key) obj

/-- The Field Accessor's `{value, unit}` unwrapping: a non-null
object-typed result whose `value` field is a number, or a string parsing
to a finite number, yields that number; otherwise the result itself. -/
def unwrapValue (result : JsValue) : JsValue :=
  if !result.isNullish && typeofIsObject result then
    match jsProp result "value" with
    | .num n => .num n
    | .str s =>
        match jsParseNumber s with
        | some n => .num n
        | none => result
    | _ => result
  else result

/-- `getValueByPath` from `Modal.tsx` (lines 401–416): falsy path or falsy
record give `undefined`; a dot-free path is a single property access, a
dotted path walks segment by segment; the result is `{value, unit}`-
unwrapped. -/
def getValueByPath (obj : JsValue) (path : Option String) : JsValue :=
  match path with
  | none => .undefined
  | some p =>
      if p = "" then .undefined
      else if obj.jsFalsy then .undefined
      else
        let result := if !p.data.contains '.' then jsProp obj p else pathResolve obj (splitPath p)
        unwrapValue result

/-- The alias table inside `normalizeFieldPath` (applied to the lowercased
field name); `weight`/`weight_kg` resolve per source. -/
def aliasTarget (f : String) (source : ChartSource) : Option String :=
  if f = "mawb" ∨ f = "mawb_number" ∨ f = "awb" ∨ f = "mawbno" ∨ f = "mawb_no" then
    some "awb_number"
  else if f = "uld" ∨ f = "uldid" ∨ f = "uld_type" then some "uld_id"
  else if f = "weight" ∨ f = "weight_kg" then
    some (match source with
          | .ulds => "weight.value"
          | .hawbs => "actual_weight_kg"
          | .shipments => "weight.value")
  else if f = "actual_weight" then some "actual_weight_kg"
  else if f = "pieces" ∨ f = "pcs" then some "pieces"
  else if f = "destination" ∨ f = "dest" then some "destination"
  else if f = "origin" then some "origin"
  else if f = "customer" then some "customer"
  else if f = "hawb" ∨ f = "hawb_number" then some "hawb_number"
  else none

/-- `normalizeFieldPath` from `Modal.tsx`: falsy fields pass through;
otherwise `map[field.toLowerCase()] || field`. -/
def normalizeFieldPath (field : Option String) (source : ChartSource) : Option String :=
  match field with
  | none => none
  | some f0 => if f0 = "" then some "" else some ((aliasTarget (sToLower f0) source).getD f0)

/-- Falsiness of an optional string field (`undefined`/`null`/`''`). -/
def strFalsy : Option String → Bool
  | none => true
  | some s => s = ""

/-- `a || b` on optional string fields. -/
def jsOrStr (a b : Option String) : Option String := if strFalsy a then b else a

/-- The source-appropriate default category field (used both as the
missing-`xField` default and as the self-correction fallback). -/
def defaultXField : ChartSource → String
  | .shipments => "awb_number"
  | .ulds => "uld_id"
  | .hawbs => "hawb_number"

/-- `normalizeSpecFields` from `Modal.tsx` (lines 436–469): alias-map
every field, then fill in source-appropriate defaults. -/
def normalizeSpecFields (spec : ChartSpec) : ChartSpec :=
  let src := spec.source
  let n :=
    { spec with
      xField := jsOrStr (normalizeFieldPath spec.xField src) spec.xField
      yField := jsOrStr (normalizeFieldPath spec.yField src) spec.yField
      yCategoryField := jsOrStr (normalizeFieldPath spec.yCategoryField src) spec.yCategoryField
      valueField := jsOrStr (normalizeFieldPath spec.valueField src) spec.valueField
      seriesField := jsOrStr (normalizeFieldPath spec.seriesField src) spec.seriesField
      sizeField := jsOrStr (normalizeFieldPath spec.sizeField src) spec.sizeField
      parentField := jsOrStr (normalizeFieldPath spec.parentField src) spec.parentField
      childField := jsOrStr (normalizeFieldPath spec.childField src) spec.childField }
  let n := if strFalsy n.xField then { n with xField := some (defaultXField src) } else n
  let n :=
    if strFalsy n.yField then
      { n with yField := some (match src with | .hawbs => "actual_weight_kg" | _ => "weight.value") }
    else n
  let n :=
    if n.chartType = ChartType.heatmap then
      let n :=
        if strFalsy n.yCategoryField then
          { n with
            yCategoryField :=
              some (match src with
                    | .ulds => "uld_id"
                    | .hawbs => "destination"
                    | .shipments => "uld_id") }
        else n
      if strFalsy n.valueField then { n with valueField := n.yField } else n
    else n
  let n :=
    if n.chartType = ChartType.stacked_bar ∧ strFalsy n.seriesField = true then
      { n with
        seriesField :=
          some (match src with
                | .ulds => "uld_id"
                | .hawbs => "destination"
                | .shipments => "awb_number") }
    else n
  let n :=
    if n.chartType = ChartType.treemap then
      let n := if strFalsy n.parentField then { n with parentField := some "awb_number" } else n
      let n := if strFalsy n.childField then { n with childField := some "hawb_number" } else n
      if strFalsy n.valueField then { n with valueField := some "actual_weight_kg" } else n
    else n
  n

/-- One `shipments` source row (`getSourceRows`, lines 474–483). -/
def shipmentRow (md : ManifestData) (s : Shipment) : JsValue :=
  .obj [("awb_number", s.awb_number),
        ("pieces", .num s.pieces),
        ("weight_kg", jsOrV (.num s.weight.value) (.num 0)),
        ("weight", .obj [("value", jsOrV (.num s.weight.value) (.num 0))]),
        ("nature_of_goods", s.nature_of_goods),
        ("destination", md.flight_details.arrival_airport),
        ("origin", md.flight_details.departure_airport)]

/-- One `ulds` source row (lines 485–497). -/
def uldRow (s : Shipment) (u : ULDContent) : JsValue :=
  .obj [("awb_number", s.awb_number),
        ("uld_id", u.uld_id),
        ("pieces", .num u.pieces),
        ("weight_kg", jsOrV (.num u.weight.value) (.num 0)),
        ("weight", .obj [("value", jsOrV (.num u.weight.value) (.num 0))])]

/-- One `hawbs` source row (lines 500–514). -/
def hawbRow (s : Shipment) (h : HouseShipment) : JsValue :=
  .obj [("awb_number", s.awb_number),
        ("hawb_number", h.hawb_number),
        ("customer", h.customer),
        ("destination", h.destination),
        ("origin", h.origin),
        ("pieces", .num h.pieces),
        ("weight_kg", .num h.actual_weight_kg),
        ("actual_weight_kg", .num h.actual_weight_kg)]

/-- `getSourceRows` from `Modal.tsx`: flatten the (possibly absent)
manifest into per-source records. -/
def getSourceRows (mdOpt : Option ManifestData) (source : ChartSource) : List JsValue :=
  match mdOpt with
  | none => []
  | some md =>
      match source with
      | .shipments => md.shipments.map (shipmentRow md)
      | .ulds => md.shipments.flatMap (fun s => s.uld_contents.map (uldRow s))
      | .hawbs => md.shipments.flatMap (fun s => s.house_shipments.map (hawbRow s))

/-- `String.prototype.includes` on character lists. -/
def substrOf (needle hay : List Char) : Bool :=
  hay.tails.any (fun t => needle.isPrefixOf t)

/-- JS strict equality `===` on the values compared by the Filter Engine.
Two composite values compare by reference in JS; a filter's `value` (parsed
from LLM JSON) and a row's resolved value are always distinct allocations
in this program, so composite comparisons are `false`. -/
def jsStrictEq (a b : JsValue) : Bool :=
  match a, b with
  | .null, .null => true
  | .undefined, .undefined => true
  | .bool x, .bool y => x == y
  | .num x, .num y => x == y
  | .str x, .str y => x == y
  | _, _ => false

/-- One filter predicate of `applyFilters` (lines 520–535). -/
def filterPred (row : JsValue) (f : ChartFilter) : Bool :=
  let v := getValueByPath row (some f.field)
  match f.op with
  | .eq => jsStrictEq v f.value
  | .neq => !jsStrictEq v f.value
  | .contains =>
      match v with
      | .str s => substrOf (sToLower (jsToString f.value)).data (sToLower s).data
      | _ => false
  | .isIn =>
      match f.value with
      | .arr xs => xs.any (fun x => jsStrictEq x v)
      | _ => false
  | .gt =>
      match jsToNumber v, jsToNumber f.value with
      | some a, some b => decide (a > b)
      | _, _ => false
  | .gte =>
      match jsToNumber v, jsToNumber f.value with
      | some a, some b => decide (a ≥ b)
      | _, _ => false
  | .lt =>
      match jsToNumber v, jsToNumber f.value with
      | some a, some b => decide (a < b)
      | _, _ => false
  | .lte =>
      match jsToNumber v, jsToNumber f.value with
      | some a, some b => decide (a ≤ b)
      | _, _ => false

/-- `applyFilters` from `Modal.tsx` (lines 518–537): missing or empty
filter lists pass rows through; otherwise keep the rows on which every
filter predicate holds. -/
def applyFilters (rows : List JsValue) (filters : Option (List ChartFilter)) : List JsValue :=
  match filters with
  | none => rows
  | some fs => if fs.length = 0 then rows else rows.filter (fun row => fs.all (filterPred row))

/-! ### The Chart Data Shaper (`generateChartDataFromSpec`) -/

/-- A shaped `{name, value}` data point. -/
structure DataPoint where
  name : String
  value : ℚ
deriving DecidableEq, Repr

/-- The group key of a row: `''` for an `undefined`/`null`/`''` category
value, else its string form. -/
def rowKey (x : Option String) (row : JsValue) : String :=
  match getValueByPath row x with
  | .undefined => ""
  | .null => ""
  | .str "" => ""
  | v => jsToString v

/-- `typeof raw === 'object' && raw !== null`. -/
def isObjectNotNull : JsValue → Bool
  | .obj _ => true
  | .arr _ => true
  | _ => false

/-- `raw === undefined`. -/
def isUndef : JsValue → Bool
  | .undefined => true
  | _ => false

/-- The shaper's raw y-value with its fallback chain: the resolved field;
then `<field>.value` when the field name ends in `weight`; then
`weight.value ?? weight_kg`. -/
def rowRawY (y : String) (row : JsValue) : JsValue :=
  let raw := getValueByPath row (some y)
  if isUndef raw || isObjectNotNull raw then
    let raw1 := if y ≠ "" ∧ strEndsWith y "weight" then getValueByPath row (some (y ++ ".value")) else raw
    if isUndef raw1 then coalesce (getValueByPath row (some "weight.value")) (getValueByPath row (some "weight_kg"))
    else raw1
  else raw

/-- The numeric y-value pushed into a group: nullish raws default to `1`
for the synthetic `value` field (count-like) and `0` otherwise; non-number
values coerce with `Number(...) || 0`.  (`Number.isFinite` always holds in
the rational model, so the final NaN guard is the identity.) -/
def rowYVal (y : String) (row : JsValue) : ℚ :=
  let raw := rowRawY y row
  let yValRaw := if raw.isNullish then (if y = "value" then JsValue.num 1 else JsValue.num 0) else raw
  match yValRaw with
  | .num q => q
  | v =>
      match jsToNumber v with
      | some q => q
      | none => 0

/-- The shaper's grouping pass: an insertion-ordered map from group key to
the list of y-values pushed for that key. -/
def shaperGroups (rows : List JsValue) (x : Option String) (y : String) :
    List (String × List ℚ) :=
  rows.foldl
    (fun groups row =>
      let key := rowKey x row
      let arr := (mapGet? key groups).getD []
      mapSet key (arr ++ [rowYVal y row]) groups)
    []

/-- `!key || key === 'undefined'` — the unresolvable-key test. -/
def badKey (s : String) : Bool := s = "" || s = "undefined"

/-- The shaper's `undefinedName` counter: how many rows have an
unresolvable group key. -/
def undefinedNameCount (rows : List JsValue) (x : Option String) : ℕ :=
  (rows.filter (fun row => badKey (rowKey x row))).length

/-- Aggregation over one group's values. -/
def aggValue (agg : Aggregate) (values : List ℚ) : ℚ :=
  match agg with
  | .count => values.length
  | .avg => if values.length = 0 then 0 else (values.foldl (fun a b => a + b) 0) / values.length
  | .sum => values.foldl (fun a b => a + b) 0

/-- The optional by-value sort (`Array.prototype.sort` is stable; a
stable merge sort models it). -/
def sortData (sort : Option SortDir) (data : List DataPoint) : List DataPoint :=
  match sort with
  | some .asc => data.mergeSort (fun a b => decide (a.value ≤ b.value))
  | some .desc => data.mergeSort (fun a b => decide (b.value ≤ a.value))
  | none => data

/-- `if (specN.topN && specN.topN > 0) data = data.slice(0, topN)`. -/
def takeTopN (topN : Option ℤ) (data : List DataPoint) : List DataPoint :=
  match topN with
  | some n => if n > 0 then data.take n.toNat else data
  | none => data

/-- `if (!specN.topN && data.length > 20) data = data.slice(0, 20)`. -/
def capNoTopN (topN : Option ℤ) (data : List DataPoint) : List DataPoint :=
  let topNFalsy := match topN with | some n => n = 0 | none => true
  if topNFalsy = true ∧ data.length > 20 then data.take 20 else data

/-- Shape grouped values into the final data points: aggregate (default
`sum`), relabel the empty key `'Unknown'`, sort, truncate. -/
def shapeData (specN : ChartSpec) (groups : List (String × List ℚ)) : List DataPoint :=
  let agg := specN.aggregate.getD .sum
  let data :=
    groups.map (fun g => { name := if g.1 = "" then "Unknown" else g.1, value := aggValue agg g.2 })
  capNoTopN specN.topN (takeTopN specN.topN (sortData specN.sort data))

/-- `specN.yField || 'value'`. -/
def yOrValue (yField : Option String) : String :=
  match yField with
  | none => "value"
  | some f => if f = "" then "value" else f

/-- The shaper's working rows: the flattened source rows after
filtering. -/
def shaperRows (mdOpt : Option ManifestData) (spec : ChartSpec) : List JsValue :=
  let specN := normalizeSpecFields spec
  applyFilters (getSourceRows mdOpt specN.source) specN.filters

/-- The groups the shaper produces for a spec. -/
def producedGroups (mdOpt : Option ManifestData) (spec : ChartSpec) :
    List (String × List ℚ) :=
  let specN := normalizeSpecFields spec
  shaperGroups (shaperRows mdOpt spec) specN.xField (yOrValue specN.yField)

/-- One non-retrying pass of `generateChartDataFromSpec`: the shaped data
and the `undefinedName` row count that drives the self-correction test. -/
def generateChartDataOnce (mdOpt : Option ManifestData) (spec : ChartSpec) :
    List DataPoint × ℕ :=
  let specN := normalizeSpecFields spec
  (shapeData specN (producedGroups mdOpt spec),
   undefinedNameCount (shaperRows mdOpt spec) specN.xField)

/-- Fuelled unfolding of the shaper's self-recursion: when more than half
of `data.length` rows had unresolvable keys and the category field is not
already the source default, retry on `{...specN, xField: fallbackX}`. -/
def generateChartDataFuel : ℕ → Option ManifestData → ChartSpec → List DataPoint
  | 0, mdOpt, spec => (generateChartDataOnce mdOpt spec).1
  | fuel + 1, mdOpt, spec =>
      let specN := normalizeSpecFields spec
      let res := generateChartDataOnce mdOpt spec
      let fallbackX := defaultXField specN.source
      if (res.2 : ℚ) > (res.1.length : ℚ) / 2 ∧ specN.xField ≠ some fallbackX then
        generateChartDataFuel fuel mdOpt { specN with xField := some fallbackX }
      else res.1

/-- `generateChartDataFromSpec` from `Modal.tsx` (lines 539–600).  The JS
function recurses at most once: the retried spec's `xField` is the source
default, which renormalizes to itself, so the inner fallback test fails;
fuel `2` therefore reproduces the JS behaviour exactly. -/
def generateChartDataFromSpec (mdOpt : Option ManifestData) (spec : ChartSpec) :
    List DataPoint :=
  generateChartDataFuel 2 mdOpt spec

/-! ### The histogram branch of `buildEchartsOption` (lines 711–729) -/

/-- `rows.map(r => Number(getValueByPath(r, x) || 0)).filter(Number.isFinite)`:
only `NaN` is dropped, so this is a `filterMap` through `Number`. -/
def histValues (rows : List JsValue) (x : Option String) : List ℚ :=
  rows.filterMap (fun r => jsToNumber (jsOrV (getValueByPath r x) (.num 0)))

/-- `Math.max(5, Math.min(spec.binCount || 12, 50))`. -/
def histBins (binCount : Option ℕ) : ℕ :=
  max 5 (min (match binCount with | some n => if n = 0 then 12 else n | none => 12) 50)

/-- `Math.min(...values, 0)`. -/
def histMin (values : List ℚ) : ℚ := values.foldl min 0

/-- `Math.max(...values, 1)`. -/
def histMax (values : List ℚ) : ℚ := values.foldl max 1

/-- `(max - min) / bins || 1`. -/
def histStep (values : List ℚ) (bins : ℕ) : ℚ :=
  let s := (histMax values - histMin values) / (bins : ℚ)
  if s = 0 then 1 else s

/-- `counts[idx]++`. -/
def bumpAt (l : List ℕ) (i : ℕ) : List ℕ := l.set i (l.getD i 0 + 1)

/-- The histogram bucket counts: floor the scaled offset, clamp the index
into `[0, bins-1]`, and bump that bucket. -/
def histCounts (values : List ℚ) (binCount : Option ℕ) : List ℕ :=
  let bins := histBins binCount
  let mn := histMin values
  let step := histStep values bins
  values.foldl
    (fun counts v =>
      let idx : ℤ := ⌊(v - mn) / step⌋
      let idx : ℤ := if idx ≥ (bins : ℤ) then (bins : ℤ) - 1 else idx
      let idx : ℤ := if idx < 0 then 0 else idx
      bumpAt counts idx.toNat)
    (List.replicate bins 0)

/-! ### Measures and invariants over the aggregator state -/

/-- The summed allocated weight over a ULD-totals map. -/
def uldWeightSum (m : List (JsValue × ULDTotals)) : ℚ :=
  (m.map (fun p => p.2.weightKg)).sum

/-- The summed attributed pieces over a ULD-totals map. -/
def uldPieceSum (m : List (JsValue × ULDTotals)) : ℕ :=
  (m.map (fun p => p.2.pieces)).sum

/-- The summed per-ULD piece counts of an allocation map. -/
def cntSum (m : List (JsValue × ℕ)) : ℕ :=
  (m.map (fun p => p.2)).sum

/-- The conservation invariant on one per-AWB accumulator: its running
totals agree with its ULD map, and every collected house shipment is a
faithful `mkHouseShipment` of some raw housebill (hence has equal
chargeable and actual weights). -/
def AccInv (acc : Accumulator) : Prop :=
  acc.totalWeightKg = uldWeightSum acc.uldIdToTotals ∧
  acc.totalPieces = uldPieceSum acc.uldIdToTotals ∧
  ∀ h ∈ acc.houseShipments, ∃ dep arr hb, h = mkHouseShipment dep arr hb

/-! ### Concrete inputs used by witness theorems -/

/-- The end-to-end raw document of spec §8: one container, one masterbill
`AWB1`, one housebill with two pieces of weight 5 and 7. -/
def sampleDoc : JsValue :=
  .obj [("containers", .arr [
    .obj [("containerNumber", .str "ULD1"),
          ("masterbills", .arr [
            .obj [("masterbillNumber", .str "AWB1"),
                  ("housebills", .arr [
                    .obj [("housebillNumber", .str "HB1"),
                          ("pieces", .arr [.obj [("weight", .num 5)],
                                           .obj [("weight", .num 7)]])]])]])]])]

/-- The shipment `transformManifest` produces for `sampleDoc`. -/
def sampleShipment : Shipment :=
  { awb_number := .str "AWB1"
    pieces := 2
    weight := { value := 12, unit := "kg" }
    nature_of_goods := .str ""
    special_handling_codes := []
    storage_instructions := none
    uld_contents := [{ uld_id := .str "ULD1", pieces := 2, weight := { value := 12, unit := "kg" } }]
    house_shipments :=
      [{ hawb_number := .str "HB1", customer := .str "", origin := .str "",
         destination := .str "", pieces := 2, actual_weight_kg := 12,
         chargeable_weight_kg := 12, remarks := .undefined }] }

/-- The manifest `transformManifest` produces for `sampleDoc`. -/
def sampleManifest : ManifestData :=
  { id := ""
    manifest_number := ""
    flight_details :=
      { flight_number := "", departure_airport := .str "", arrival_airport := .str "",
        departure_date := "", arrival_date := "" }
    shipments := [sampleShipment]
    total_pieces := 2
    total_weight := { value := 12, unit := "kg" } }

/-- A document on which the discovery heuristic meets a `null` first
element (`typeof null === 'object'`), so the JS `in` operator throws. -/
def nullProbeDoc : JsValue :=
  .obj [("containers", .arr [.obj [("items", .arr [.null])]])]

/-- A masterbill with an empty AWB number but non-trivial cargo. -/
def emptyAwbMasterbill : JsValue :=
  .obj [("masterbillNumber", .str ""),
        ("housebills", .arr [.obj [("pieces", .arr [.obj [("weight", .num 3)]])]])]

/-- Rows whose field `v` takes the values 0, 10 and 20 (the histogram
example of spec §8). -/
def histRows : List JsValue :=
  [.obj [("v", .num 0)], .obj [("v", .num 10)], .obj [("v", .num 20)]]

/-- A one-shipment manifest for exercising the chart pipeline. -/
def sampleChartManifest : ManifestData :=
  { id := "m1"
    manifest_number := "m1"
    flight_details :=
      { flight_number := "LH100", departure_airport := .str "FRA",
        arrival_airport := .str "JFK", departure_date := "", arrival_date := "" }
    shipments :=
      [{ awb_number := .str "AWB1", pieces := 2, weight := { value := 12, unit := "kg" },
         nature_of_goods := .str "", special_handling_codes := [], storage_instructions := none,
         uld_contents := [{ uld_id := .str "ULD1", pieces := 2, weight := { value := 12, unit := "kg" } }],
         house_shipments := [] }]
    total_pieces := 2
    total_weight := { value := 12, unit := "kg" } }

/-- A chart spec whose category field resolves on no row, driving the
shaper's self-correction. -/
def unresolvableSpec : ChartSpec :=
  { source := .shipments, chartType := .bar, xField := some "bogus_field", yField := none,
    yCategoryField := none, valueField := none, seriesField := none, sizeField := none,
    parentField := none, childField := none, aggregate := none, title := none,
    filters := none, topN := none, sort := none, unit := none, binCount := none, stack := none }

/-- A record following the `{value, unit}` wrapper convention. -/
def wrapperRecord : JsValue :=
  .obj [("weight", .obj [("value", .str "3.5"), ("unit", .str "kg")])]

/-- Two rows with `pieces` 0 and 3, for the Filter Engine witness. -/
def filterRows : List JsValue :=
  [.obj [("pieces", .num 0)], .obj [("pieces", .num 3)]]

/-! ### Generic lemmas about folds and the map model -/

theorem foldl_add_eq {M β : Type} [AddCommMonoid M] (f : β → M) :
    ∀ (l : List β) (n : M), l.foldl (fun a x => a + f x) n = n + (l.map f).sum := by
  intro l
  induction l with
  | nil => simp
  | cons x t ih => intro n; simp [ih, add_assoc]

theorem mapGet?_mem {κ α : Type} [BEq κ] {k : κ} {a : α} :
    ∀ {m : List (κ × α)}, mapGet? k m = some a → ∃ l, (l, a) ∈ m := by
  intro m
  induction m with
  | nil => intro h; simp [mapGet?] at h
  | cons p t ih =>
      intro h
      obtain ⟨l, w⟩ := p
      by_cases hk : (l == k) = true
      · simp [mapGet?, hk] at h
        exact ⟨l, by simp [h]⟩
      · simp [mapGet?, hk] at h
        obtain ⟨l', hl'⟩ := ih h
        exact ⟨l', by simp [hl']⟩

theorem mem_mapSet {κ α : Type} [BEq κ] {k : κ} {v : α} {p : κ × α} :
    ∀ {m : List (κ × α)}, p ∈ mapSet k v m → p = (k, v) ∨ p ∈ m := by
  intro m
  induction m with
  | nil => intro h; simp [mapSet] at h; exact Or.inl h
  | cons q t ih =>
      intro h
      obtain ⟨l, w⟩ := q
      by_cases hk : (l == k) = true
      · simp [mapSet, hk] at h
        rcases h with h | h
        · exact Or.inl h
        · exact Or.inr (by simp [h])
      · simp [mapSet, hk] at h
        rcases h with h | h
        · exact Or.inr (by simp [h])
        · rcases ih h with h' | h'
          · exact Or.inl h'
          · exact Or.inr (by simp [h'])

/-- Updating a key with a measure-bump `g` (where the default's measure is
zero) raises the map's summed measure by exactly the bump. -/
theorem sum_map_mapSet_bump {κ α M : Type} [BEq κ] [AddCommMonoid M]
    (f : α → M) (d : α) (g : α → α) (δ : M)
    (hd : f d = 0) (hg : ∀ a, f (g a) = f a + δ) :
    ∀ (m : List (κ × α)) (k : κ),
      ((mapSet k (g ((mapGet? k m).getD d)) m).map (fun p => f p.2)).sum
        = (m.map (fun p => f p.2)).sum + δ := by
  intro m
  induction m with
  | nil => intro k; simp [mapSet, mapGet?, hg, hd]
  | cons q t ih =>
      intro k
      obtain ⟨l, w⟩ := q
      by_cases hk : (l == k) = true
      · simp [mapSet, mapGet?, hk, hg]
        abel
      · simp [mapSet, mapGet?, hk, ih k, add_assoc]

/-! ### Conservation of the proportional ULD allocation -/

theorem foldl_allocStep_weight (alloc : ℕ) (w : ℚ) :
    ∀ (cs : List (JsValue × ℕ)) (m : List (JsValue × ULDTotals)),
      uldWeightSum
        (cs.foldl
          (fun m e =>
            let t := (mapGet? e.1 m).getD ⟨0, 0⟩
            mapSet e.1 ⟨t.pieces + e.2, t.weightKg + ((e.2 : ℚ) / (alloc : ℚ)) * w⟩ m)
          m)
        = uldWeightSum m + (cs.map (fun e => ((e.2 : ℚ) / (alloc : ℚ)) * w)).sum := by
  intro cs
  induction cs with
  | nil => intro m; simp [uldWeightSum]
  | cons e cs ih =>
      intro m
      simp only [List.foldl_cons, List.map_cons, List.sum_cons]
      rw [ih]
      have hb :=
        sum_map_mapSet_bump (fun t : ULDTotals => t.weightKg) ⟨0, 0⟩
          (fun t => ⟨t.pieces + e.2, t.weightKg + ((e.2 : ℚ) / (alloc : ℚ)) * w⟩)
          (((e.2 : ℚ) / (alloc : ℚ)) * w) rfl (fun _ => rfl) m e.1
      unfold uldWeightSum
      rw [hb]
      ring

theorem foldl_allocStep_pieces (alloc : ℕ) (w : ℚ) :
    ∀ (cs : List (JsValue × ℕ)) (m : List (JsValue × ULDTotals)),
      uldPieceSum
        (cs.foldl
          (fun m e =>
            let t := (mapGet? e.1 m).getD ⟨0, 0⟩
            mapSet e.1 ⟨t.pieces + e.2, t.weightKg + ((e.2 : ℚ) / (alloc : ℚ)) * w⟩ m)
          m)
        = uldPieceSum m + cntSum cs := by
  intro cs
  induction cs with
  | nil => intro m; simp [uldPieceSum, cntSum]
  | cons e cs ih =>
      intro m
      simp only [List.foldl_cons]
      rw [ih]
      have hb :=
        sum_map_mapSet_bump (fun t : ULDTotals => t.pieces) ⟨0, 0⟩
          (fun t => ⟨t.pieces + e.2, t.weightKg + ((e.2 : ℚ) / (alloc : ℚ)) * w⟩)
          e.2 rfl (fun _ => rfl) m e.1
      unfold uldPieceSum
      rw [hb]
      simp [cntSum]
      omega

theorem uldWeightSum_applyUldAlloc (counts : List (JsValue × ℕ)) (w : ℚ)
    (m : List (JsValue × ULDTotals)) :
    uldWeightSum (applyUldAlloc counts w m)
      = uldWeightSum m
        + (counts.map (fun e => ((e.2 : ℚ) / (allocTotal counts : ℚ)) * w)).sum := by
  unfold applyUldAlloc
  exact foldl_allocStep_weight (allocTotal counts) w counts m

theorem uldPieceSum_applyUldAlloc (counts : List (JsValue × ℕ)) (w : ℚ)
    (m : List (JsValue × ULDTotals)) :
    uldPieceSum (applyUldAlloc counts w m) = uldPieceSum m + cntSum counts := by
  unfold applyUldAlloc
  exact foldl_allocStep_pieces (allocTotal counts) w counts m

theorem sum_shares_cast (cs : List (JsValue × ℕ)) (a w : ℚ) :
    (cs.map (fun e => ((e.2 : ℚ) / a) * w)).sum = ((cntSum cs : ℚ) / a) * w := by
  induction cs with
  | nil => simp [cntSum]
  | cons e cs ih =>
      simp only [List.map_cons, List.sum_cons, ih, cntSum, Nat.cast_add]
      push_cast
      ring

/-- The allocated shares sum to exactly the allocated weight: either the
piece counts are positive (so the `|| 1` guard is inactive and the shares
telescope to `w`), or they are all zero, in which case the weight being
allocated is itself zero. -/
theorem allocShares_eq (counts : List (JsValue × ℕ)) (w : ℚ)
    (h : cntSum counts = 0 → w = 0) :
    (counts.map (fun e => ((e.2 : ℚ) / (allocTotal counts : ℚ)) * w)).sum = w := by
  rw [sum_shares_cast]
  by_cases hs : cntSum counts = 0
  · simp [h hs]
  · have ha : allocTotal counts = cntSum counts := by
      unfold allocTotal cntSum at *
      simp [hs]
    rw [ha, div_self (by exact_mod_cast hs), one_mul]

theorem housePiecesCount_eq (hbs : List JsValue) :
    housePiecesCount hbs = (hbs.map (fun hb => (hbPiecesList hb).length)).sum := by
  unfold housePiecesCount
  rw [foldl_add_eq]
  simp

theorem houseWeightTotal_eq (hbs : List JsValue) :
    houseWeightTotal hbs = (hbs.map (fun hb => pieceWeightSum (hbPiecesList hb))).sum := by
  unfold houseWeightTotal
  rw [foldl_add_eq]
  simp

/-- If a masterbill's housebills carry no pieces at all, they also carry
no weight: both quantities are computed from the same piece lists. -/
theorem houseWeight_zero_of_pieces_zero (hbs : List JsValue)
    (h : housePiecesCount hbs = 0) : houseWeightTotal hbs = 0 := by
  rw [housePiecesCount_eq] at h
  rw [houseWeightTotal_eq]
  apply List.sum_eq_zero
  intro x hx
  obtain ⟨hb, hhb, rfl⟩ := List.mem_map.mp hx
  have hlen : (hbPiecesList hb).length = 0 :=
    (List.sum_eq_zero_iff.mp h) _ (List.mem_map_of_mem _ hhb)
  rw [List.length_eq_zero.mp hlen]
  rfl

theorem cntSum_build_aux :
    ∀ (pa : List JsValue) (u : JsValue) (m : List (JsValue × ℕ)),
      cntSum
        (pa.foldl
          (fun m p =>
            let uldFromPiece := coalesce (jsGetOpt p "containerNumber") u
            mapSet uldFromPiece ((mapGet? uldFromPiece m).getD 0 + 1) m)
          m)
        = cntSum m + pa.length := by
  intro pa
  induction pa with
  | nil => intro u m; simp
  | cons p pa ih =>
      intro u m
      simp only [List.foldl_cons, List.length_cons]
      rw [ih]
      have hb :=
        sum_map_mapSet_bump (fun n : ℕ => n) 0 (fun n => n + 1) 1 rfl (fun _ => rfl) m
          (coalesce (jsGetOpt p "containerNumber") u)
      unfold cntSum
      rw [hb]
      · omega

theorem cntSum_buildUldPieceCounts (u : JsValue) (pa : List JsValue) :
    cntSum (buildUldPieceCounts u pa) = pa.length := by
  unfold buildUldPieceCounts
  rw [cntSum_build_aux]
  simp [cntSum]

theorem cntSum_uldPieceCountsOf (u : JsValue) (mb : JsValue) :
    cntSum (uldPieceCountsOf u mb) = piecesCountOf mb := by
  unfold uldPieceCountsOf piecesCountOf
  by_cases h : (piecesArrayOf mb).length > 0
  · simp only [h, if_true]
    exact cntSum_buildUldPieceCounts u (piecesArrayOf mb)
  · simp only [h, if_false]
    simp [mapSet, mapGet?, cntSum]

/-- Zero summed piece counts force a zero allocated weight. -/
theorem piecesCountZero_weight (mb : JsValue) (h : piecesCountOf mb = 0) :
    houseWeightTotal (housebillsOf mb) = 0 := by
  unfold piecesCountOf at h
  by_cases hpa : (piecesArrayOf mb).length > 0
  · rw [if_pos hpa] at h
    omega
  · simp only [hpa, if_false] at h
    exact houseWeight_zero_of_pieces_zero _ h

/-! ### The invariant is preserved by both aggregation paths -/

theorem AccInv_fresh (mb : JsValue) : AccInv (freshAccumulator mb) := by
  refine ⟨?_, ?_, ?_⟩ <;> simp [freshAccumulator, uldWeightSum, uldPieceSum]

/-- Merging one masterbill into an accumulator preserves the invariant:
the weight added to the running total equals the summed allocated shares,
the pieces added equal the summed per-ULD counts, and the appended house
shipments are `mkHouseShipment` images. -/
theorem AccInv_step (dep arr fallbackUld : JsValue) (mb : JsValue) (ex : Accumulator)
    (hex : AccInv ex) (shcsNew : List String) :
    AccInv
      { ex with
        totalPieces := ex.totalPieces + piecesCountOf mb
        totalWeightKg := ex.totalWeightKg + houseWeightTotal (housebillsOf mb)
        shcs := shcsNew
        uldIdToTotals :=
          applyUldAlloc (uldPieceCountsOf fallbackUld mb)
            (houseWeightTotal (housebillsOf mb)) ex.uldIdToTotals
        houseShipments :=
          ex.houseShipments ++ (housebillsOf mb).map (mkHouseShipment dep arr) } := by
  obtain ⟨hw, hp, hh⟩ := hex
  have hshares :=
    allocShares_eq (uldPieceCountsOf fallbackUld mb) (houseWeightTotal (housebillsOf mb))
      (fun h0 => piecesCountZero_weight mb (by rwa [cntSum_uldPieceCountsOf] at h0))
  refine ⟨?_, ?_, ?_⟩
  · show ex.totalWeightKg + houseWeightTotal (housebillsOf mb) = uldWeightSum _
    rw [uldWeightSum_applyUldAlloc, hshares, hw]
  · show ex.totalPieces + piecesCountOf mb = uldPieceSum _
    rw [uldPieceSum_applyUldAlloc, cntSum_uldPieceCountsOf, hp]
  · intro h hmem
    rcases List.mem_append.mp hmem with h1 | h2
    · exact hh h h1
    · obtain ⟨hb, _, rfl⟩ := List.mem_map.mp h2
      exact ⟨dep, arr, hb, rfl⟩

theorem processMasterbill_inv (dep arr uld mb : JsValue)
    (st : List (JsValue × Accumulator)) (hst : ∀ p ∈ st, AccInv p.2) :
    ∀ p ∈ processMasterbill dep arr uld st mb, AccInv p.2 := by
  intro p hp
  unfold processMasterbill at hp
  by_cases hf : (coalesce (jsGetOpt mb "masterbillNumber") (.str "")).jsFalsy = true
  · rw [if_pos hf] at hp
    exact hst p hp
  · rw [if_neg hf] at hp
    rcases mem_mapSet hp with heq | hmem
    · rw [heq]
      have hex :
          AccInv ((mapGet? (coalesce (jsGetOpt mb "masterbillNumber") (.str "")) st).getD
            (freshAccumulator mb)) := by
        rcases hg : mapGet? (coalesce (jsGetOpt mb "masterbillNumber") (.str "")) st with _ | a
        · rw [Option.getD_none]
          exact AccInv_fresh mb
        · rw [Option.getD_some]
          obtain ⟨l, hl⟩ := mapGet?_mem hg
          exact hst (l, a) hl
      exact AccInv_step dep arr uld mb _ hex _
    · exact hst p hmem

theorem processTopMasterbill_inv (dep arr mb : JsValue)
    (st : List (JsValue × Accumulator)) (hst : ∀ p ∈ st, AccInv p.2) :
    ∀ p ∈ processTopMasterbill dep arr st mb, AccInv p.2 := by
  intro p hp
  unfold processTopMasterbill at hp
  by_cases hf : (coalesce (jsGetOpt mb "masterbillNumber") (.str "")).jsFalsy = true
  · rw [if_pos hf] at hp
    exact hst p hp
  · rw [if_neg hf] at hp
    rcases mem_mapSet hp with heq | hmem
    · rw [heq]
      have hex :
          AccInv ((mapGet? (coalesce (jsGetOpt mb "masterbillNumber") (.str "")) st).getD
            (freshAccumulator mb)) := by
        rcases hg : mapGet? (coalesce (jsGetOpt mb "masterbillNumber") (.str "")) st with _ | a
        · rw [Option.getD_none]
          exact AccInv_fresh mb
        · rw [Option.getD_some]
          obtain ⟨l, hl⟩ := mapGet?_mem hg
          exact hst (l, a) hl
      exact AccInv_step dep arr (.str "UNKNOWN-ULD") mb _ hex _
    · exact hst p hmem

theorem foldl_processMasterbill_inv (dep arr uld : JsValue) :
    ∀ (mbs : List JsValue) (st : List (JsValue × Accumulator)),
      (∀ p ∈ st, AccInv p.2) →
      ∀ p ∈ mbs.foldl (processMasterbill dep arr uld) st, AccInv p.2 := by
  intro mbs
  induction mbs with
  | nil => intro st hst; simpa using hst
  | cons mb mbs ih =>
      intro st hst
      simp only [List.foldl_cons]
      exact ih _ (processMasterbill_inv dep arr uld mb st hst)

theorem foldl_processTopMasterbill_inv (dep arr : JsValue) :
    ∀ (mbs : List JsValue) (st : List (JsValue × Accumulator)),
      (∀ p ∈ st, AccInv p.2) →
      ∀ p ∈ mbs.foldl (processTopMasterbill dep arr) st, AccInv p.2 := by
  intro mbs
  induction mbs with
  | nil => intro st hst; simpa using hst
  | cons mb mbs ih =>
      intro st hst
      simp only [List.foldl_cons]
      exact ih _ (processTopMasterbill_inv dep arr mb st hst)

theorem processContainer_inv (dep arr : JsValue) (acc res : List (JsValue × Accumulator) × ℕ)
    (c : JsValue) (h : processContainer dep arr acc c = .ok res)
    (hacc : ∀ p ∈ acc.1, AccInv p.2) : ∀ p ∈ res.1, AccInv p.2 := by
  unfold processContainer at h
  cases hm : masterbillsOfContainer c with
  | error e => rw [hm] at h; simp [Bind.bind, Except.bind] at h
  | ok mbs =>
      rw [hm] at h
      simp only [Bind.bind, Except.bind, Except.ok.injEq] at h
      rw [← h]
      exact foldl_processMasterbill_inv dep arr _ mbs acc.1 hacc

theorem foldlM_containers_inv (dep arr : JsValue) :
    ∀ (cs : List JsValue) (init res : List (JsValue × Accumulator) × ℕ),
      List.foldlM (processContainer dep arr) init cs = .ok res →
      (∀ p ∈ init.1, AccInv p.2) → ∀ p ∈ res.1, AccInv p.2 := by
  intro cs
  induction cs with
  | nil =>
      intro init res h hi
      simp only [List.foldlM_nil, pure, Except.pure, Except.ok.injEq] at h
      rw [← h]
      exact hi
  | cons c cs ih =>
      intro init res h hi
      rw [List.foldlM_cons] at h
      cases hc : processContainer dep arr init c with
      | error e => rw [hc] at h; simp [Bind.bind, Except.bind] at h
      | ok mid =>
          rw [hc] at h
          simp only [Bind.bind, Except.bind] at h
          exact ih mid res h (processContainer_inv dep arr init mid c hc hi)

theorem coalesce_obj_not_nullish (x : JsValue) (fs : List (String × JsValue)) :
    (coalesce x (.obj fs)).isNullish = false := by
  unfold coalesce
  by_cases hx : x.isNullish = true
  · rw [if_pos hx]; rfl
  · rw [if_neg hx]; simpa using hx

/-- `jsGet` on a value coalesced against an object literal never throws. -/
theorem jsGet_coalesce_obj (x : JsValue) (fs : List (String × JsValue)) (k : String) :
    jsGet (coalesce x (.obj fs)) k = .ok (jsProp (coalesce x (.obj fs)) k) := by
  unfold jsGet
  rw [coalesce_obj_not_nullish]
  simp

/-- Structure of every successful `transformManifest` run: the shipments
are the finalized per-AWB accumulators, every accumulator satisfies the
conservation invariant, and the manifest totals are the straight sums over
the finalized shipments. -/
theorem transformManifest_ok_cases (v : JsValue) (m : ManifestData)
    (h : transformManifest v = .ok m) :
    ∃ byAwb : List (JsValue × Accumulator),
      (∀ p ∈ byAwb, AccInv p.2) ∧
      m.shipments = byAwb.map finalizeShipment ∧
      m.total_pieces = m.shipments.foldl (fun sum s => sum + s.pieces) 0 ∧
      m.total_weight.value
        = m.shipments.foldl (fun sum s => sum + asNumber (.num s.weight.value)) 0 := by
  unfold transformManifest at h
  simp only [jsGet_coalesce_obj, Bind.bind, Except.bind] at h
  split at h
  next heq => simp at h
  next walked heq =>
    simp only [Except.ok.injEq] at h
    subst h
    refine ⟨_, ?_, rfl, rfl, rfl⟩
    have hwalk := foldlM_containers_inv _ _ _ ([], 0) walked heq (by simp)
    split <;> split <;>
      first
        | exact foldl_processTopMasterbill_inv _ _ _ walked.1 hwalk
        | exact hwalk

/-- Evaluation of the aggregator on the spec §8 end-to-end document.
(Rational arithmetic does not reduce definitionally in this toolchain, so
concrete runs are evaluated by simp-normalization.) -/
theorem sampleDoc_eval : transformManifest sampleDoc = .ok sampleManifest := by
  norm_num +decide [transformManifest, sampleDoc, sampleManifest, sampleShipment, jsGet, jsGetOpt,
    jsProp, coalesce, JsValue.isNullish, isArray, jsArrayElems, processContainer,
    masterbillsOfContainer, processMasterbill, piecesArrayOf, housebillsOf, hbPiecesList, shcsOf,
    housePiecesCount, pieceWeightSum, houseWeightTotal, piecesCountOf, uldPieceCountsOf,
    buildUldPieceCounts, allocTotal, applyUldAlloc, mkHouseShipment, freshAccumulator, mapGet?,
    mapSet, setAdd, finalizeShipment, jsToString, qToString, asNumber, JsValue.jsFalsy,
    JsValue.jsTruthy, JsValue.beq, ownEntries, discoverLoop, jsIn, typeofIsObject, Bind.bind,
    Except.bind, pure, Except.pure, List.foldlM]

/-! ### Claim theorems: the manifest aggregator -/

/-- C1.  For every raw API document on which `transformManifest` returns,
the manifest's `total_pieces` is the sum of `pieces` over its shipments
and `total_weight.value` is the sum of `weight.value` over its shipments:
both totals are recomputed from the finalized shipments, never taken from
upstream totals. -/
theorem transformManifest_totals (v : JsValue) (m : ManifestData)
    (h : transformManifest v = .ok m) :
    m.total_pieces = (m.shipments.map (fun s => s.pieces)).sum ∧
    m.total_weight.value = (m.shipments.map (fun s => s.weight.value)).sum := by
  obtain ⟨byAwb, _, _, hp, hw⟩ := transformManifest_ok_cases v m h
  constructor
  · rw [hp, foldl_add_eq (fun s : Shipment => s.pieces)]
    simp
  · rw [hw, foldl_add_eq (fun s : Shipment => asNumber (.num s.weight.value))]
    simp [asNumber]

/-- C1 witness: the end-to-end document of spec §8. -/
theorem transformManifest_totals_witness :
    transformManifest sampleDoc = .ok sampleManifest ∧
    sampleManifest.total_pieces = (sampleManifest.shipments.map (fun s => s.pieces)).sum ∧
    sampleManifest.total_weight.value
      = (sampleManifest.shipments.map (fun s => s.weight.value)).sum :=
  ⟨sampleDoc_eval, transformManifest_totals sampleDoc sampleManifest sampleDoc_eval⟩

/-- C2.  For every raw API document and every shipment in the output with
non-empty `uld_contents`, the ULD weights sum exactly (in rational
arithmetic) to the shipment's weight: weight is allocated across ULDs,
not invented. -/
theorem transformManifest_uld_weight_conserved (v : JsValue) (m : ManifestData)
    (h : transformManifest v = .ok m) :
    ∀ s ∈ m.shipments, s.uld_contents ≠ [] →
      (s.uld_contents.map (fun u => u.weight.value)).sum = s.weight.value := by
  obtain ⟨byAwb, hinv, hs, _, _⟩ := transformManifest_ok_cases v m h
  intro s hsmem _
  rw [hs] at hsmem
  obtain ⟨p, hp, rfl⟩ := List.mem_map.mp hsmem
  show _ = (finalizeShipment p).weight.value
  unfold finalizeShipment
  simp only [List.map_map]
  rw [(hinv p hp).1]
  rfl

/-- C2 witness: the spec §8 document, whose single shipment carries all
12 kg in one ULD. -/
theorem transformManifest_uld_weight_conserved_witness :
    transformManifest sampleDoc = .ok sampleManifest ∧
    sampleShipment ∈ sampleManifest.shipments ∧
    sampleShipment.uld_contents ≠ [] ∧
    (sampleShipment.uld_contents.map (fun u => u.weight.value)).sum
      = sampleShipment.weight.value :=
  ⟨sampleDoc_eval, List.mem_singleton.mpr rfl, List.cons_ne_nil _ _,
    transformManifest_uld_weight_conserved sampleDoc sampleManifest sampleDoc_eval sampleShipment
      (List.mem_singleton.mpr rfl) (List.cons_ne_nil _ _)⟩

/-- C10.  For every shipment produced by `transformManifest`, the `pieces`
of its `uld_contents` sum to the shipment's `pieces`: piece counts, like
weights, are conserved by the per-ULD attribution on both paths. -/
theorem transformManifest_uld_pieces_conserved (v : JsValue) (m : ManifestData)
    (h : transformManifest v = .ok m) :
    ∀ s ∈ m.shipments, (s.uld_contents.map (fun u => u.pieces)).sum = s.pieces := by
  obtain ⟨byAwb, hinv, hs, _, _⟩ := transformManifest_ok_cases v m h
  intro s hsmem
  rw [hs] at hsmem
  obtain ⟨p, hp, rfl⟩ := List.mem_map.mp hsmem
  show _ = (finalizeShipment p).pieces
  unfold finalizeShipment
  simp only [List.map_map]
  rw [(hinv p hp).2.1]
  rfl

/-- C10 witness: the spec §8 document (2 pieces, all in one ULD). -/
theorem transformManifest_uld_pieces_conserved_witness :
    transformManifest sampleDoc = .ok sampleManifest ∧
    sampleShipment ∈ sampleManifest.shipments ∧
    (sampleShipment.uld_contents.map (fun u => u.pieces)).sum = sampleShipment.pieces :=
  ⟨sampleDoc_eval, List.mem_singleton.mpr rfl,
    transformManifest_uld_pieces_conserved sampleDoc sampleManifest sampleDoc_eval sampleShipment
      (List.mem_singleton.mpr rfl)⟩

/-- C9.  Every house shipment produced by `transformManifest` (on either
aggregation path) has `chargeable_weight_kg` equal to `actual_weight_kg`,
and both equal the sum of that housebill's own pieces' weights. -/
theorem transformManifest_house_weights (v : JsValue) (m : ManifestData)
    (h : transformManifest v = .ok m) :
    ∀ s ∈ m.shipments, ∀ hsp ∈ s.house_shipments,
      hsp.chargeable_weight_kg = hsp.actual_weight_kg ∧
      ∃ dep arr hb, hsp = mkHouseShipment dep arr hb ∧
        hsp.actual_weight_kg = pieceWeightSum (hbPiecesList hb) := by
  obtain ⟨byAwb, hinv, hs, _, _⟩ := transformManifest_ok_cases v m h
  intro s hsmem hsp hmem
  rw [hs] at hsmem
  obtain ⟨p, hp, rfl⟩ := List.mem_map.mp hsmem
  obtain ⟨dep, arr, hb, rfl⟩ := (hinv p hp).2.2 hsp hmem
  exact ⟨rfl, dep, arr, hb, rfl, rfl⟩

/-- C9 witness: the spec §8 document (house shipment of 12 kg on both
weight fields). -/
theorem transformManifest_house_weights_witness :
    transformManifest sampleDoc = .ok sampleManifest ∧
    sampleShipment ∈ sampleManifest.shipments ∧
    ∀ hsp ∈ sampleShipment.house_shipments,
      hsp.chargeable_weight_kg = hsp.actual_weight_kg ∧
      ∃ dep arr hb, hsp = mkHouseShipment dep arr hb ∧
        hsp.actual_weight_kg = pieceWeightSum (hbPiecesList hb) :=
  ⟨sampleDoc_eval, List.mem_singleton.mpr rfl,
    transformManifest_house_weights sampleDoc sampleManifest sampleDoc_eval sampleShipment
      (List.mem_singleton.mpr rfl)⟩

/-- C6.  A masterbill whose `masterbillNumber` is empty or missing (falsy)
is skipped: the per-AWB state is left untouched — no pieces, no weight, no
new entry — on both the container walk and the top-level fallback path. -/
theorem masterbill_empty_awb_skipped (dep arr uldId mb : JsValue)
    (st : List (JsValue × Accumulator))
    (hf : (coalesce (jsGetOpt mb "masterbillNumber") (.str "")).jsFalsy = true) :
    processMasterbill dep arr uldId st mb = st ∧
    processTopMasterbill dep arr st mb = st := by
  constructor
  · unfold processMasterbill
    rw [if_pos hf]
  · unfold processTopMasterbill
    rw [if_pos hf]

/-- C6 witness: a masterbill with an empty AWB number and non-trivial
cargo changes nothing on either path. -/
theorem masterbill_empty_awb_skipped_witness :
    (coalesce (jsGetOpt emptyAwbMasterbill "masterbillNumber") (.str "")).jsFalsy = true ∧
    processMasterbill (.str "FRA") (.str "JFK") (.str "ULD1") [] emptyAwbMasterbill = [] ∧
    processTopMasterbill (.str "FRA") (.str "JFK") [] emptyAwbMasterbill = [] :=
  ⟨by simp [emptyAwbMasterbill, coalesce, jsGetOpt, jsProp, JsValue.isNullish, JsValue.jsFalsy,
      JsValue.jsTruthy],
    masterbill_empty_awb_skipped (.str "FRA") (.str "JFK") (.str "ULD1") emptyAwbMasterbill []
      (by simp [emptyAwbMasterbill, coalesce, jsGetOpt, jsProp, JsValue.isNullish, JsValue.jsFalsy,
        JsValue.jsTruthy])⟩

/-- C3 (the aggregator does *not* always return): on `nullProbeDoc` the
discovery heuristic reaches `'masterbillNumber' in null` — `typeof null
=== 'object'` passes the guard — and `transformManifest` throws a
`TypeError` instead of returning a `ManifestData`. -/
theorem transformManifest_throws_on_null_probe :
    transformManifest nullProbeDoc
      = .error "TypeError: cannot use in operator to search in a non-object" := by
  norm_num +decide [transformManifest, nullProbeDoc, jsGet, jsGetOpt, jsProp, coalesce,
    JsValue.isNullish, isArray, jsArrayElems, processContainer, masterbillsOfContainer, ownEntries,
    discoverLoop, jsIn, typeofIsObject, JsValue.jsFalsy, JsValue.jsTruthy, Bind.bind, Except.bind,
    pure, Except.pure, List.foldlM]

/-! ### Claim theorems: histogram binning (C4) -/

/-- C4 counterexample.  On rows whose field `v` takes the values 0, 10 and
20 with `binCount: 2`, the histogram branch does *not* produce 2 buckets
with counts `[2, 1]`: the bin count is clamped below by 5. -/
theorem histogram_binCount2_not_two_buckets :
    histCounts (histValues histRows (some "v")) (some 2) ≠ [2, 1] ∧ histBins (some 2) ≠ 2 := by
  have hv : histValues histRows (some "v") = [0, 10, 20] := by
    norm_num +decide [histValues, histRows, getValueByPath, jsProp, unwrapValue, jsOrV, jsToNumber,
      JsValue.jsTruthy, JsValue.isNullish, typeofIsObject, JsValue.jsFalsy, isIndexString,
      List.filterMap_cons, List.filterMap_nil]
  constructor
  · rw [hv]
    norm_num +decide [histCounts, histBins, histMin, histMax, histStep, bumpAt, List.set, List.getD]
  · norm_num [histBins]

/-- C4 as amended: the chart option builder clamps the bin count to
`max(5, min(binCount || 12, 50))`, so rows with values 0, 10 and 20 and
`binCount: 2` produce 5 equal-width buckets of width 4 over the range
`[0, 20]` with counts `[1, 0, 1, 0, 1]`; 0 falls in the first bucket, 10
in the third, and the range maximum 20 in the last bucket by the
index-clamp rule. -/
theorem histogram_binCount2_five_buckets :
    histBins (some 2) = 5 ∧
    histMin (histValues histRows (some "v")) = 0 ∧
    histMax (histValues histRows (some "v")) = 20 ∧
    histStep (histValues histRows (some "v")) 5 = 4 ∧
    histCounts (histValues histRows (some "v")) (some 2) = [1, 0, 1, 0, 1] := by
  have hv : histValues histRows (some "v") = [0, 10, 20] := by
    norm_num +decide [histValues, histRows, getValueByPath, jsProp, unwrapValue, jsOrV, jsToNumber,
      JsValue.jsTruthy, JsValue.isNullish, typeofIsObject, JsValue.jsFalsy, isIndexString,
      List.filterMap_cons, List.filterMap_nil]
  rw [hv]
  refine ⟨by norm_num [histBins], ?_, ?_, ?_, ?_⟩ <;>
    norm_num +decide [histCounts, histBins, histMin, histMax, histStep, bumpAt, List.set,
      List.getD]

/-! ### Claim theorems: the Filter Engine (C7) -/

/-- C7.  `applyFilters` returns exactly the rows, in their original order,
on which every filter predicate holds (logical AND); absent or empty
filter lists return the rows unchanged. -/
theorem applyFilters_spec (rows : List JsValue) (fs : List ChartFilter) :
    applyFilters rows none = rows ∧
    applyFilters rows (some []) = rows ∧
    applyFilters rows (some fs) = rows.filter (fun r => fs.all (filterPred r)) ∧
    List.Sublist (applyFilters rows (some fs)) rows ∧
    (∀ r, r ∈ applyFilters rows (some fs) ↔ r ∈ rows ∧ ∀ f ∈ fs, filterPred r f = true) := by
  have h3 : applyFilters rows (some fs) = rows.filter (fun r => fs.all (filterPred r)) := by
    show (if fs.length = 0 then rows else rows.filter (fun row => fs.all (filterPred row))) = _
    by_cases h : fs.length = 0
    · rw [if_pos h, List.length_eq_zero.mp h]
      simp
    · rw [if_neg h]
  refine ⟨rfl, rfl, h3, ?_, ?_⟩
  · rw [h3]
    exact List.filter_sublist rows
  · intro r
    rw [h3]
    simp [List.mem_filter, List.all_eq_true]

/-- C7 witness: a `pieces > 0` filter keeps exactly the row with 3
pieces. -/
theorem applyFilters_spec_witness :
    applyFilters filterRows (some [{ field := "pieces", op := .gt, value := .num 0 }])
        = filterRows.filter
            (fun r => [({ field := "pieces", op := .gt, value := .num 0 } : ChartFilter)].all
              (filterPred r)) ∧
    applyFilters filterRows (some [{ field := "pieces", op := .gt, value := .num 0 }])
        = [.obj [("pieces", .num 3)]] :=
  ⟨(applyFilters_spec filterRows [{ field := "pieces", op := .gt, value := .num 0 }]).2.2.1,
    by norm_num +decide [applyFilters, filterPred, filterRows, getValueByPath, jsProp, unwrapValue,
      jsToNumber, JsValue.jsTruthy, JsValue.isNullish, typeofIsObject, JsValue.jsFalsy,
      isIndexString, List.filter]⟩

/-! ### Claim theorems: the Field Accessor (C8) -/

/-- C8.  `getValueByPath` resolves a dotted path segment by segment
(`undefined` propagating through missing segments), returns `undefined`
for an absent path or falsy record, and unwraps a resolved non-null
object whose `value` field is a number or numeric string to that
number. -/
theorem getValueByPath_spec (obj : JsValue) (p : String) :
    getValueByPath obj none = .undefined ∧
    getValueByPath obj (some "") = .undefined ∧
    (obj.jsFalsy = true → getValueByPath obj (some p) = .undefined) ∧
    (p ≠ "" → obj.jsTruthy = true → p.data.contains '.' = false →
      getValueByPath obj (some p) = unwrapValue (jsProp obj p)) ∧
    (p ≠ "" → obj.jsTruthy = true → p.data.contains '.' = true →
      getValueByPath obj (some p) = unwrapValue (pathResolve obj (splitPath p))) ∧
    (∀ ks : List String, pathResolve .undefined ks = .undefined) ∧
    (∀ fs n, jsProp (.obj fs) "value" = .num n → unwrapValue (.obj fs) = .num n) ∧
    (∀ fs s n, jsProp (.obj fs) "value" = .str s → jsParseNumber s = some n →
      unwrapValue (.obj fs) = .num n) := by
  refine ⟨rfl, by simp [getValueByPath], ?_, ?_, ?_, ?_, ?_, ?_⟩
  · intro h
    unfold getValueByPath
    by_cases hp : p = "" <;> simp [hp, h]
  · intro hp hobj hc
    have hc' : ¬ ('.' ∈ p.data) := by simpa using hc
    unfold getValueByPath
    simp [hp, JsValue.jsFalsy, hobj, hc']
  · intro hp hobj hc
    have hc' : ('.' ∈ p.data) := by simpa using hc
    unfold getValueByPath
    simp [hp, JsValue.jsFalsy, hobj, hc']
  · intro ks
    induction ks with
    | nil => rfl
    | cons k ks ih =>
        unfold pathResolve at ih ⊢
        simpa [JsValue.isNullish] using ih
  · intro fs n h
    unfold unwrapValue
    simp [JsValue.isNullish, typeofIsObject, h]
  · intro fs s n h hn
    unfold unwrapValue
    simp [JsValue.isNullish, typeofIsObject, h, hn]

/-- C8 witness: `weight.value` on a `{value: "3.5", unit: "kg"}` wrapper
resolves segment by segment (the resolved leaf is the string itself; the
wrapper unwraps when the path stops at `weight`). -/
theorem getValueByPath_spec_witness :
    ("weight.value" ≠ "") ∧
    wrapperRecord.jsTruthy = true ∧
    ("weight.value".data.contains '.') = true ∧
    getValueByPath wrapperRecord (some "weight.value")
      = unwrapValue (pathResolve wrapperRecord (splitPath "weight.value")) ∧
    getValueByPath wrapperRecord (some "weight") = .num (7 / 2) :=
  ⟨by decide, by decide, by decide,
    (getValueByPath_spec wrapperRecord "weight.value").2.2.2.2.1 (by decide) (by decide)
      (by decide),
    by norm_num +decide [getValueByPath, wrapperRecord, jsProp, unwrapValue, pathResolve,
      JsValue.jsTruthy, JsValue.isNullish, typeofIsObject, JsValue.jsFalsy, isIndexString,
      jsParseNumber, parseDigits, jsWhitespace, show '3'.toNat = 51 from rfl,
      show '5'.toNat = 53 from rfl, show '0'.toNat = 48 from rfl]⟩

/-! ### Lemmas toward the shaper's self-correction (C5) -/

theorem mapSet_keys_sub {κ α : Type} [BEq κ] {k : κ} {v : α} :
    ∀ {m : List (κ × α)} {a : κ},
      a ∈ (mapSet k v m).map (fun p => p.1) → a ∈ m.map (fun p => p.1) ∨ a = k := by
  intro m
  induction m with
  | nil =>
      intro a ha
      simp [mapSet] at ha
      exact Or.inr ha
  | cons q t ih =>
      intro a ha
      obtain ⟨l, w⟩ := q
      by_cases hk : (l == k) = true
      · simp only [mapSet, hk, if_true, List.map_cons, List.mem_cons] at ha
        rcases ha with ha | ha
        · exact Or.inr ha
        · exact Or.inl (by simp [ha])
      · simp only [mapSet, hk, if_false, Bool.false_eq_true, List.map_cons, List.mem_cons] at ha
        rcases ha with ha | ha
        · exact Or.inl (by simp [ha])
        · rcases ih ha with h | h
          · exact Or.inl (by simp [h])
          · exact Or.inr h

theorem mapSet_keys_nodup {κ α : Type} [BEq κ] [LawfulBEq κ] {k : κ} {v : α} :
    ∀ {m : List (κ × α)},
      (m.map (fun p => p.1)).Nodup → ((mapSet k v m).map (fun p => p.1)).Nodup := by
  intro m
  induction m with
  | nil => intro; simp [mapSet]
  | cons q t ih =>
      intro hn
      obtain ⟨l, w⟩ := q
      simp only [List.map_cons, List.nodup_cons] at hn
      by_cases hk : (l == k) = true
      · have hlk : l = k := by simpa using hk
        subst hlk
        simp only [mapSet, hk, if_true, List.map_cons, List.nodup_cons]
        exact hn
      · simp only [mapSet, hk, if_false, Bool.false_eq_true, List.map_cons, List.nodup_cons]
        refine ⟨?_, ih hn.2⟩
        intro hmem
        rcases mapSet_keys_sub hmem with h | h
        · exact hn.1 h
        · exact absurd (h ▸ rfl : (l == k) = (k == k)) (by simp [hk])

theorem shaperGroups_foldl_keys_nodup (x : Option String) (y : String) :
    ∀ (rows : List JsValue) (acc : List (String × List ℚ)),
      (acc.map (fun p => p.1)).Nodup →
      (((rows.foldl
          (fun groups row =>
            let key := rowKey x row
            let arr := (mapGet? key groups).getD []
            mapSet key (arr ++ [rowYVal y row]) groups)
          acc)).map (fun p => p.1)).Nodup := by
  intro rows
  induction rows with
  | nil => intro acc h; simpa using h
  | cons r rows ih =>
      intro acc h
      simp only [List.foldl_cons]
      exact ih _ (mapSet_keys_nodup h)

/-- The group keys the shaper produces are pairwise distinct. -/
theorem shaperGroups_keys_nodup (rows : List JsValue) (x : Option String) (y : String) :
    ((shaperGroups rows x y).map (fun p => p.1)).Nodup :=
  shaperGroups_foldl_keys_nodup x y rows [] (by simp)

theorem shaperGroups_foldl_key_prov (x : Option String) (y : String) :
    ∀ (rows : List JsValue) (acc : List (String × List ℚ)) (key : String),
      key ∈ ((rows.foldl
          (fun groups row =>
            let keyR := rowKey x row
            let arr := (mapGet? keyR groups).getD []
            mapSet keyR (arr ++ [rowYVal y row]) groups)
          acc)).map (fun p => p.1) →
      key ∈ acc.map (fun p => p.1) ∨ ∃ r ∈ rows, rowKey x r = key := by
  intro rows
  induction rows with
  | nil => intro acc key h; exact Or.inl (by simpa using h)
  | cons r rows ih =>
      intro acc key h
      simp only [List.foldl_cons] at h
      rcases ih _ key h with h' | h'
      · rcases mapSet_keys_sub h' with h'' | h''
        · exact Or.inl h''
        · exact Or.inr ⟨r, List.mem_cons_self r rows, h''.symm⟩
      · obtain ⟨r', hr', hk⟩ := h'
        exact Or.inr ⟨r', List.mem_cons_of_mem r hr', hk⟩

/-- Every produced group key is the key of some source row. -/
theorem shaperGroups_key_from_row (rows : List JsValue) (x : Option String) (y : String) :
    ∀ key ∈ (shaperGroups rows x y).map (fun p => p.1), ∃ r ∈ rows, rowKey x r = key := by
  intro key h
  rcases shaperGroups_foldl_key_prov x y rows [] key h with h' | h'
  · simp at h'
  · exact h'

/-- At most two groups can carry an unresolvable key (`''` or
`'undefined'`), since group keys are distinct. -/
theorem badKey_filter_le_two (gs : List (String × List ℚ))
    (hn : (gs.map (fun p => p.1)).Nodup) :
    (gs.filter (fun g => badKey g.1)).length ≤ 2 := by
  have hsub : ((gs.filter (fun g => badKey g.1)).map (fun p => p.1)).Sublist
      (gs.map (fun p => p.1)) :=
    (List.filter_sublist gs).map _
  have hnd := List.Nodup.sublist hsub hn
  have hss : ((gs.filter (fun g => badKey g.1)).map (fun p => p.1)) ⊆ ["", "undefined"] := by
    intro a ha
    obtain ⟨g, hg, rfl⟩ := List.mem_map.mp ha
    have hbk := List.of_mem_filter hg
    unfold badKey at hbk
    rcases (by simpa using hbk : g.1 = "" ∨ g.1 = "undefined") with h | h <;> simp [h]
  have := (hnd.subperm hss).length_le
  simpa using this.trans (by simp)

theorem two_le_length_of_mem_ne {α : Type} {l : List α} {a b : α}
    (ha : a ∈ l) (hb : b ∈ l) (hab : a ≠ b) : 2 ≤ l.length := by
  cases l with
  | nil => simp at ha
  | cons x t =>
      cases t with
      | nil =>
          simp at ha hb
          exact absurd (ha.trans hb.symm) hab
      | cons y u =>
          simp only [List.length_cons]
          omega

theorem sortData_length (o : Option SortDir) (d : List DataPoint) :
    (sortData o d).length = d.length := by
  unfold sortData
  cases o with
  | none => rfl
  | some dir => cases dir <;> simp [List.length_mergeSort]

theorem takeTopN_length_le (t : Option ℤ) (d : List DataPoint) :
    (takeTopN t d).length ≤ d.length := by
  unfold takeTopN
  cases t with
  | none => exact le_refl _
  | some n =>
      show (if n > 0 then List.take n.toNat d else d).length ≤ d.length
      by_cases h : n > 0
      · rw [if_pos h]
        simp [List.length_take]
      · rw [if_neg h]

theorem capNoTopN_length_le (t : Option ℤ) (d : List DataPoint) :
    (capNoTopN t d).length ≤ d.length := by
  unfold capNoTopN
  dsimp only
  split
  · simp [List.length_take]
  · exact le_refl _

/-- Shaping can only shrink the group list. -/
theorem shapeData_length_le (specN : ChartSpec) (gs : List (String × List ℚ)) :
    (shapeData specN gs).length ≤ gs.length := by
  unfold shapeData
  calc (capNoTopN specN.topN (takeTopN specN.topN (sortData specN.sort _))).length
      ≤ (takeTopN specN.topN (sortData specN.sort _)).length := capNoTopN_length_le _ _
    _ ≤ (sortData specN.sort _).length := takeTopN_length_le _ _
    _ = gs.length := by rw [sortData_length, List.length_map]

/-- Field normalization never changes the spec's source. -/
theorem normalizeSpecFields_source (spec : ChartSpec) :
    (normalizeSpecFields spec).source = spec.source := by
  unfold normalizeSpecFields
  dsimp only
  simp only [apply_ite ChartSpec.source, ite_self]

/-- The normalized category field: the alias-mapped field when truthy,
else the source default. -/
theorem normalizeSpecFields_xField (spec : ChartSpec) :
    (normalizeSpecFields spec).xField =
      (if strFalsy (jsOrStr (normalizeFieldPath spec.xField spec.source) spec.xField) = true
        then some (defaultXField spec.source)
        else jsOrStr (normalizeFieldPath spec.xField spec.source) spec.xField) := by
  unfold normalizeSpecFields
  dsimp only
  simp only [apply_ite ChartSpec.xField, ite_self]

/-- The source defaults are fixed points of the alias map. -/
theorem defaultXField_norm_fix (src : ChartSource) :
    normalizeFieldPath (some (defaultXField src)) src = some (defaultXField src) := by
  cases src <;> decide

theorem strFalsy_defaultXField (src : ChartSource) :
    strFalsy (some (defaultXField src)) = false := by
  cases src <;> decide

/-- Renormalizing the retried spec leaves its category field at the
source default — the reason the shaper retries at most once. -/
theorem retried_spec_xField (spec : ChartSpec) :
    (normalizeSpecFields
      { normalizeSpecFields spec with
        xField := some (defaultXField (normalizeSpecFields spec).source) }).xField
      = some (defaultXField (normalizeSpecFields spec).source) := by
  rw [normalizeSpecFields_xField]
  dsimp only
  rw [defaultXField_norm_fix]
  simp [jsOrStr, strFalsy_defaultXField]

theorem retried_spec_source (spec : ChartSpec) :
    (normalizeSpecFields
      { normalizeSpecFields spec with
        xField := some (defaultXField (normalizeSpecFields spec).source) }).source
      = (normalizeSpecFields spec).source := by
  rw [normalizeSpecFields_source]

/-- One-step unfolding of the fuelled shaper. -/
theorem generateChartDataFuel_succ (fuel : ℕ) (mdOpt : Option ManifestData) (spec : ChartSpec) :
    generateChartDataFuel (fuel + 1) mdOpt spec =
      if ((generateChartDataOnce mdOpt spec).2 : ℚ)
            > ((generateChartDataOnce mdOpt spec).1.length : ℚ) / 2 ∧
          (normalizeSpecFields spec).xField
            ≠ some (defaultXField (normalizeSpecFields spec).source) then
        generateChartDataFuel fuel mdOpt
          { normalizeSpecFields spec with
            xField := some (defaultXField (normalizeSpecFields spec).source) }
      else (generateChartDataOnce mdOpt spec).1 := rfl

/-! ### Claim theorem: the shaper's self-correction (C5) -/

/-- C5.  When more than half of the produced groups have an unresolvable
category key (`''` for empty/missing values, or the stringified
`'undefined'`) and the category field is not already the source default
(`awb_number` / `uld_id` / `hawb_number`), `generateChartDataFromSpec`
retries once with that default category field and returns the retry's
result instead of failing. -/
theorem generateChartData_self_correction (mdOpt : Option ManifestData) (spec : ChartSpec)
    (hmaj : 2 * ((producedGroups mdOpt spec).filter (fun g => badKey g.1)).length
        > (producedGroups mdOpt spec).length)
    (hx : (normalizeSpecFields spec).xField
        ≠ some (defaultXField (normalizeSpecFields spec).source)) :
    generateChartDataFromSpec mdOpt spec
      = generateChartDataFromSpec mdOpt
          { normalizeSpecFields spec with
            xField := some (defaultXField (normalizeSpecFields spec).source) } := by
  have hgs : producedGroups mdOpt spec
      = shaperGroups (shaperRows mdOpt spec) (normalizeSpecFields spec).xField
          (yOrValue (normalizeSpecFields spec).yField) := rfl
  have hnodup : ((producedGroups mdOpt spec).map (fun p => p.1)).Nodup := by
    rw [hgs]
    exact shaperGroups_keys_nodup _ _ _
  have hb2 := badKey_filter_le_two (producedGroups mdOpt spec) hnodup
  -- the `undefinedName` row counter dominates the number of bad groups
  have hub : ((producedGroups mdOpt spec).filter (fun g => badKey g.1)).length
      ≤ undefinedNameCount (shaperRows mdOpt spec) (normalizeSpecFields spec).xField := by
    have hcase : ((producedGroups mdOpt spec).filter (fun g => badKey g.1)).length = 1 ∨
        ((producedGroups mdOpt spec).filter (fun g => badKey g.1)).length = 2 := by omega
    unfold undefinedNameCount
    rcases hcase with h1 | h2
    · obtain ⟨g, hg⟩ := List.length_eq_one.mp h1
      have hgmem : g ∈ (producedGroups mdOpt spec).filter (fun g => badKey g.1) := by
        rw [hg]; exact List.mem_singleton.mpr rfl
      have hgin := List.mem_of_mem_filter hgmem
      have hgbad := List.of_mem_filter hgmem
      obtain ⟨r, hr, hrk⟩ :=
        shaperGroups_key_from_row (shaperRows mdOpt spec) (normalizeSpecFields spec).xField
          (yOrValue (normalizeSpecFields spec).yField) g.1
          (by rw [hgs] at hgin; exact List.mem_map_of_mem _ hgin)
      have hrmem : r ∈ (shaperRows mdOpt spec).filter
          (fun row => badKey (rowKey (normalizeSpecFields spec).xField row)) :=
        List.mem_filter.mpr ⟨hr, by rw [hrk]; simpa using hgbad⟩
      have := List.length_pos_of_mem hrmem
      omega
    · obtain ⟨g1, g2, hg⟩ := List.length_eq_two.mp h2
      have hg1mem : g1 ∈ (producedGroups mdOpt spec).filter (fun g => badKey g.1) := by
        rw [hg]; simp
      have hg2mem : g2 ∈ (producedGroups mdOpt spec).filter (fun g => badKey g.1) := by
        rw [hg]; simp
      have hnd2 : (((producedGroups mdOpt spec).filter (fun g => badKey g.1)).map
          (fun p => p.1)).Nodup :=
        List.Nodup.sublist ((List.filter_sublist _).map _) hnodup
      rw [hg] at hnd2
      have hkne : g1.1 ≠ g2.1 := by
        simp only [List.map_cons, List.map_nil, List.nodup_cons] at hnd2
        intro h
        exact hnd2.1 (by simp [h])
      obtain ⟨r1, hr1, hrk1⟩ :=
        shaperGroups_key_from_row (shaperRows mdOpt spec) (normalizeSpecFields spec).xField
          (yOrValue (normalizeSpecFields spec).yField) g1.1
          (by rw [hgs] at hg1mem; exact List.mem_map_of_mem _ (List.mem_of_mem_filter hg1mem))
      obtain ⟨r2, hr2, hrk2⟩ :=
        shaperGroups_key_from_row (shaperRows mdOpt spec) (normalizeSpecFields spec).xField
          (yOrValue (normalizeSpecFields spec).yField) g2.1
          (by rw [hgs] at hg2mem; exact List.mem_map_of_mem _ (List.mem_of_mem_filter hg2mem))
      have hr1mem : r1 ∈ (shaperRows mdOpt spec).filter
          (fun row => badKey (rowKey (normalizeSpecFields spec).xField row)) :=
        List.mem_filter.mpr ⟨hr1, by rw [hrk1]; simpa using List.of_mem_filter hg1mem⟩
      have hr2mem : r2 ∈ (shaperRows mdOpt spec).filter
          (fun row => badKey (rowKey (normalizeSpecFields spec).xField row)) :=
        List.mem_filter.mpr ⟨hr2, by rw [hrk2]; simpa using List.of_mem_filter hg2mem⟩
      have hrne : r1 ≠ r2 := by
        intro h
        exact hkne (by rw [← hrk1, ← hrk2, h])
      have := two_le_length_of_mem_ne hr1mem hr2mem hrne
      omega
  have hdlen : (generateChartDataOnce mdOpt spec).1.length
      ≤ (producedGroups mdOpt spec).length :=
    shapeData_length_le (normalizeSpecFields spec) (producedGroups mdOpt spec)
  have hcnt : (generateChartDataOnce mdOpt spec).2
      = undefinedNameCount (shaperRows mdOpt spec) (normalizeSpecFields spec).xField := rfl
  have hcond : ((generateChartDataOnce mdOpt spec).2 : ℚ)
      > ((generateChartDataOnce mdOpt spec).1.length : ℚ) / 2 := by
    rw [gt_iff_lt, div_lt_iff₀ (by norm_num : (0:ℚ) < 2)]
    have : (generateChartDataOnce mdOpt spec).1.length
        < (generateChartDataOnce mdOpt spec).2 * 2 := by
      rw [hcnt]
      omega
    exact_mod_cast this
  have hfix : (normalizeSpecFields
      { normalizeSpecFields spec with
        xField := some (defaultXField (normalizeSpecFields spec).source) }).xField
      = some (defaultXField (normalizeSpecFields
          { normalizeSpecFields spec with
            xField := some (defaultXField (normalizeSpecFields spec).source) }).source) := by
    rw [retried_spec_xField, retried_spec_source]
  have hnotcond : ¬ (((generateChartDataOnce mdOpt
        { normalizeSpecFields spec with
          xField := some (defaultXField (normalizeSpecFields spec).source) }).2 : ℚ)
        > ((generateChartDataOnce mdOpt
            { normalizeSpecFields spec with
              xField := some (defaultXField (normalizeSpecFields spec).source) }).1.length : ℚ)
          / 2 ∧
      (normalizeSpecFields
        { normalizeSpecFields spec with
          xField := some (defaultXField (normalizeSpecFields spec).source) }).xField
        ≠ some (defaultXField (normalizeSpecFields
            { normalizeSpecFields spec with
              xField := some (defaultXField (normalizeSpecFields spec).source) }).source)) :=
    fun hc => hc.2 hfix
  show generateChartDataFuel 2 mdOpt spec = generateChartDataFuel 2 mdOpt _
  rw [show (2:ℕ) = 1 + 1 from rfl]
  rw [generateChartDataFuel_succ, generateChartDataFuel_succ]
  rw [if_pos ⟨hcond, hx⟩, if_neg hnotcond]
  rw [show (1:ℕ) = 0 + 1 from rfl, generateChartDataFuel_succ, if_neg hnotcond]

/-- C5 witness: a spec whose category field `bogus_field` resolves on no
row of a one-shipment manifest; the single produced group is the
unresolvable one, and the shaper's answer equals the answer for the
default `awb_number` spec. -/
theorem generateChartData_self_correction_witness :
    2 * ((producedGroups (some sampleChartManifest) unresolvableSpec).filter
          (fun g => badKey g.1)).length
        > (producedGroups (some sampleChartManifest) unresolvableSpec).length ∧
    (normalizeSpecFields unresolvableSpec).xField
        ≠ some (defaultXField (normalizeSpecFields unresolvableSpec).source) ∧
    generateChartDataFromSpec (some sampleChartManifest) unresolvableSpec
      = generateChartDataFromSpec (some sampleChartManifest)
          { normalizeSpecFields unresolvableSpec with
            xField := some (defaultXField (normalizeSpecFields unresolvableSpec).source) } := by
  have hmaj : 2 * ((producedGroups (some sampleChartManifest) unresolvableSpec).filter
          (fun g => badKey g.1)).length
        > (producedGroups (some sampleChartManifest) unresolvableSpec).length := by
    norm_num +decide [producedGroups, shaperRows, shaperGroups, normalizeSpecFields,
      normalizeFieldPath, aliasTarget, sToLower, strFalsy, jsOrStr, defaultXField, getSourceRows,
      sampleChartManifest, unresolvableSpec, shipmentRow, applyFilters, rowKey, rowYVal, rowRawY,
      getValueByPath, jsProp, unwrapValue, pathResolve, isObjectNotNull, isUndef, strEndsWith,
      jsOrV, coalesce, JsValue.isNullish, JsValue.jsTruthy, JsValue.jsFalsy, typeofIsObject,
      jsToNumber, jsToString, qToString, mapGet?, mapSet, JsValue.beq, badKey, yOrValue, splitPath,
      splitOnChar, isIndexString, jsParseNumber, parseDigits, jsWhitespace, List.filter]
  have hx : (normalizeSpecFields unresolvableSpec).xField
      ≠ some (defaultXField (normalizeSpecFields unresolvableSpec).source) := by decide
  exact ⟨hmaj, hx, generateChartData_self_correction (some sampleChartManifest) unresolvableSpec
    hmaj hx⟩

end ACM
